import Mathlib

/-!
Verification of the image-processing REST service (Climber1705/image-processing-api).

The development shallowly embeds the filesystem-facing service layer:
* paths are lists of components (mirroring `pathlib.Path`),
* the filesystem is an association list from paths to the information
  Pillow would report for the file stored there,
* fallible OS primitives (`os.unlink`, `shutil.move`, `Image.save`) take an
  explicit list of paths on which the primitive raises, so that the
  exception-handling branches of the Python code are exercised,
* every service method returns the new filesystem together with an
  `Except` carrying either the HTTP error it raises or its result.

Sources embedded (paths relative to the repository root):
`app/services/image/crud_operations.py`, `app/services/image/storage/local_storage.py`,
`app/services/image/metadata_handler.py`, `app/services/image/image_editor.py`,
`app/services/processing/processing_controller.py`, `app/services/processing/metadata.py`,
`app/services/file_io/file_operations.py`, `app/services/file_management/file_search.py`,
`app/services/file_management/image_verfication.py`, `app/utils/validator/simple_validator.py`,
`app/utils/file_operations/directory_utils.py`, `app/services/detection/detection_service.py`,
`app/core/config.py`, `app/core/settings.py`, `app/core/dependencies.py`.
-/

namespace ImageAPI

/-- A filesystem path, as a list of components (mirrors `pathlib.Path.parts`). -/
abbrev FPath := List String

/-- The information Pillow reports for an image file
(`img.format`, `img.mode`, `img.width`, `img.height`) together with the
byte size reported by `os.path.getsize`. -/
structure ImgInfo where
  format : String
  mode : String
  width : Nat
  height : Nat
  sizeBytes : Nat
deriving DecidableEq, Repr

/-- The filesystem: an association list from existing file paths to the
image information of the file stored there. -/
abbrev Fs := List (FPath × ImgInfo)

/-- JSON-style values appearing in the metadata dictionaries built by the service. -/
inductive Val where
  | str (v : String)
  | nat (v : Nat)
  | null
deriving DecidableEq, Repr

/-- A `fastapi.HTTPException`: status code and detail message. -/
structure HTTPError where
  status : Nat
  detail : String
deriving DecidableEq, Repr

/-- Whether an `Except` result is a success. -/
def isOkE {ε α : Type} : Except ε α → Bool
  | Except.ok _ => true
  | Except.error _ => false

/-! ### Filesystem primitives -/

/-- Look up the image info stored at a path. -/
def fsLookup (fs : Fs) (p : FPath) : Option ImgInfo :=
  (fs.find? (fun e => e.1 == p)).map (fun e => e.2)

/-- `Path.exists()` on the embedded filesystem. -/
def fsExists (fs : Fs) (p : FPath) : Bool :=
  (fsLookup fs p).isSome

/-- Remove every entry stored at `p`. -/
def fsErase (fs : Fs) (p : FPath) : Fs :=
  fs.filter (fun e => ! (e.1 == p))

/-- Write (create or overwrite) the file at `p`. -/
def fsInsert (fs : Fs) (p : FPath) (i : ImgInfo) : Fs :=
  (p, i) :: fsErase fs p

/-- `os.unlink` / `Path.unlink`: fails (raises) when the path is listed in
`unlinkFails` (an injected OS failure) or when the file does not exist
(`FileNotFoundError`). -/
def unlink (unlinkFails : List FPath) (fs : Fs) (p : FPath) : Option Fs :=
  if unlinkFails.contains p then Option.none
  else if fsExists fs p then some (fsErase fs p) else Option.none

/-- `shutil.move src dst`: fails when `src` is listed in `moveFails`
(an injected OS failure) or `src` does not exist; otherwise the file is
renamed, replacing any file previously at `dst`. -/
def shutilMove (moveFails : List FPath) (fs : Fs) (src dst : FPath) : Option Fs :=
  if moveFails.contains src then Option.none
  else
    match fsLookup fs src with
    | some i => some (fsInsert (fsErase fs src) dst i)
    | Option.none => Option.none

/-! ### String helpers mirroring `pathlib` / `os.path` -/

/-- `str.upper()`: uppercase every character (kernel-computable version of
`String.toUpper`). -/
def strUpper (s : String) : String :=
  String.mk (s.data.map Char.toUpper)

/-- `str.lower()`: lowercase every character (kernel-computable version of
`String.toLower`). -/
def strLower (s : String) : String :=
  String.mk (s.data.map Char.toLower)

/-- Split a character list at every occurrence of `c`. -/
def splitOnCharAux (c : Char) : List Char → List (List Char)
  | [] => [[]]
  | x :: xs =>
    match splitOnCharAux c xs with
    | [] => if x == c then [[], []] else [[x]]
    | h :: t => if x == c then [] :: h :: t else (x :: h) :: t

/-- Split a string at every `/` (the separator handling of
`str.split('/')` used to model `pathlib` on raw strings). -/
def splitSlash (s : String) : List String :=
  (splitOnCharAux '/' s.data).map String.mk

/-- Index of the last `'.'` in a character list (accumulator style). -/
def lastDotIdxAux : List Char → Nat → Option Nat → Option Nat
  | [], _, acc => acc
  | c :: cs, i, acc => lastDotIdxAux cs (i + 1) (if c == '.' then some i else acc)

/-- Index of the last `'.'` in a string, if any. -/
def lastDotIdx (s : String) : Option Nat :=
  lastDotIdxAux s.toList 0 Option.none

/-- `pathlib.PurePath.stem` applied to a single name: the name without its
suffix, where a suffix exists only when the last dot is neither leading
nor trailing. -/
def nameStem (s : String) : String :=
  match lastDotIdx s with
  | some i => if 0 < i && i < s.length - 1 then s.take i else s
  | Option.none => s

/-- `pathlib.PurePath.suffix` applied to a single name (including the dot),
or `""` when there is none. -/
def nameSuffix (s : String) : String :=
  match lastDotIdx s with
  | some i => if 0 < i && i < s.length - 1 then s.drop i else ""
  | Option.none => ""

/-- `os.path.splitext` applied to a single name: splits at the last dot
provided some earlier character is not a dot. -/
def splitextName (s : String) : String × String :=
  match lastDotIdx s with
  | some i =>
    if (s.take i).toList.any (fun c => c != '.') then (s.take i, s.drop i) else (s, "")
  | Option.none => (s, "")

/-- Final path component (`Path.name` / `os.path.basename`). -/
def baseName (p : FPath) : String :=
  p.getLastD ""

/-- `str(path)`: components joined with `/`. -/
def joinPath (p : FPath) : String :=
  String.intercalate "/" p

/-- `Path.with_suffix(suf)`: replace (or append) the suffix of the final
component. -/
def withSuffix (p : FPath) (suf : String) : FPath :=
  p.dropLast ++ [nameStem (p.getLastD "") ++ suf]

/-- `Path(filename).stem` for a raw string that may contain separators:
`pathlib` first takes the final `/`-separated component. -/
def strStem (s : String) : String :=
  nameStem ((splitSlash s).getLastD "")

/-! ### Directories

`app/core/config.py` (`Settings`): `UPLOADED_FOLDER = app/static/uploaded`,
`EDITED_FOLDER = app/static/edited`, `DETECTED_FOLDER = app/static/detected`.
`app/core/settings.py` (`APISettings`): `UPLOAD_FOLDER = app/static/uploads`,
`PROCESSED_FOLDER = app/static/processed`, `ANALYZED_FOLDER = app/static/analysed`.
Both stacks create all of their directories at startup
(`DirectoryManager._create_directories`, `Settings.setup`), so directory
existence checks (`directory.exists()`) are modelled as true. -/

def uploadedDir : FPath := ["app", "static", "uploaded"]
def editedDir : FPath := ["app", "static", "edited"]
def detectedDir : FPath := ["app", "static", "detected"]

def uploadsDir : FPath := ["app", "static", "uploads"]
def processedDir : FPath := ["app", "static", "processed"]
def analyzedDir : FPath := ["app", "static", "analysed"]

/-- Modelled from the spec: the dependency `get_directories` wired into the
`uploaded`/`edited`/`detected` stack is not under `src/` (only its callers
are). Spec §6 and the glossary fix the folder set to
`{uploaded, edited, detected}`; the directory paths are the corresponding
fields of `app/core/config.py`. -/
def getDirectories : List (String × FPath) :=
  [("uploaded", uploadedDir), ("edited", editedDir), ("detected", detectedDir)]

/-- `get_folders` from `app/core/dependencies.py` (the duplicate stack):
`uploads`/`processed`/`analyzed` mapped to the `APISettings` folders. -/
def getFolders : List (String × FPath) :=
  [("uploads", uploadsDir), ("processed", processedDir), ("analyzed", analyzedDir)]

/-- `DirectoryManager.validate_folder` (`app/utils/file_operations/directory_utils.py`)
and `DirectoryHandler.validate_folder` (`app/services/file_management/directory_handler.py`):
membership of the folder name in the configured directory dictionary. -/
def validateFolder (dirs : List (String × FPath)) (folder : String) : Bool :=
  (dirs.lookup folder).isSome

/-- `DirectoryManager.get_directory` / `DirectoryHandler.get_directory`:
returns the directory path of a valid folder name, otherwise raises
HTTP 400 `Invalid folder: ...`. -/
def getDirectory (dirs : List (String × FPath)) (folder : String) :
    Except HTTPError FPath :=
  if validateFolder dirs folder then Except.ok ((dirs.lookup folder).getD [])
  else Except.error ⟨400, "Invalid folder: " ++ folder⟩

/-! ### Format validation -/

/-- `ImageVerfication.FORMAT_EXTENSIONS`
(`app/services/file_management/image_verfication.py`). -/
def FORMAT_EXTENSIONS : List (String × String) :=
  [("JPEG", ".jpg"), ("JPG", ".jpg"), ("PNG", ".png"), ("GIF", ".gif"),
   ("BMP", ".bmp"), ("TIFF", ".tiff"), ("WEBP", ".webp")]

/-- `APISettings.SUPPORTED_FORMATS` (`app/core/settings.py`). -/
def SUPPORTED_FORMATS : List (String × String) :=
  [("JPEG", ".jpg"), ("PNG", ".png"), ("GIF", ".gif"), ("BMP", ".bmp"),
   ("TIFF", ".tiff"), ("WEBP", ".webp")]

/-- Modelled from the spec: the dependency `get_format_extensions` injected
into `SimpleImageValidator` is not under `src/`. Spec §6 fixes the supported
formats to JPEG, PNG, GIF, BMP, TIFF, WEBP; the extension of each format is
taken from the identical in-repo table `APISettings.SUPPORTED_FORMATS`. -/
def getFormatExtensions : List (String × String) := SUPPORTED_FORMATS

/-- `ImageVerfication.validate_format` and `SimpleImageValidator.validate_format`
(both textually identical, parameterised here by the injected
format-to-extension dictionary): uppercase the format, return it when it is
a key of the dictionary, otherwise raise HTTP 400. -/
def validateFormat (fmtExts : List (String × String)) (format : String) :
    Except HTTPError String :=
  let f := strUpper format
  if (fmtExts.lookup f).isSome then Except.ok f
  else
    Except.error ⟨400, "Unsupported image format: " ++ f ++ ". Supported formats: "
      ++ String.intercalate ", " (fmtExts.map (fun e => e.1))⟩

/-- `ImageVerfication.get_extension` / `SimpleImageValidator.get_extension`:
validate the format, then index the dictionary with it. -/
def getExtension (fmtExts : List (String × String)) (format : String) :
    Except HTTPError String :=
  match validateFormat fmtExts format with
  | Except.ok f => Except.ok ((fmtExts.lookup f).getD "")
  | Except.error e => Except.error e

/-! ### Metadata extraction -/

/-- `ImageMetadataExtractor.get_metadata` (`app/services/image/metadata_handler.py`)
and the textually identical `ImageMetadata.get_metadata`
(`app/services/processing/metadata.py`): open the image and build the
metadata dictionary, raising HTTP 404 on `FileNotFoundError`. An existing
file is openable in this model, so the catch-all 500 branch for corrupt
files does not arise here. -/
def getMetadata (fs : Fs) (p : FPath) : Except HTTPError (List (String × Val)) :=
  match fsLookup fs p with
  | some info =>
    Except.ok
      [("filename", Val.str (baseName p)),
       ("format", Val.str info.format),
       ("mode", Val.str info.mode),
       ("width", Val.nat info.width),
       ("height", Val.nat info.height),
       ("size_bytes", Val.nat info.sizeBytes),
       ("path", Val.str (joinPath p)),
       ("url", Val.null)]
  | Option.none => Except.error ⟨404, "Image not found"⟩

/-! ### CRUD operations (`app/services/image/crud_operations.py`, and the
duplicate-stack twins in `app/services/file_io/file_operations.py` and
`app/services/file_management/file_search.py`) -/

/-- `ImageCRUDService.get_image_path` / `FileSearch.get_image_path`:
resolve the folder, join the image id, raise HTTP 404 when absent. -/
def getImagePath (dirs : List (String × FPath)) (fs : Fs)
    (imageId folder : String) : Except HTTPError FPath :=
  match getDirectory dirs folder with
  | Except.error e => Except.error e
  | Except.ok directory =>
    let imagePath := directory ++ [imageId]
    if fsExists fs imagePath then Except.ok imagePath
    else Except.error ⟨404, "Image " ++ imageId ++ " not found in " ++ folder⟩

/-- `ImageCRUDService.get_image_by_id` / `FileSearch.get_image_by_id`:
path lookup followed by metadata extraction. -/
def getImageById (dirs : List (String × FPath)) (fs : Fs)
    (imageId folder : String) : Except HTTPError (List (String × Val)) :=
  match getImagePath dirs fs imageId folder with
  | Except.error e => Except.error e
  | Except.ok p => getMetadata fs p

/-- Successful response of `delete_image`. -/
structure DeleteOk where
  message : String
  deletedImage : List (String × Val)
deriving DecidableEq, Repr

/-- `ImageCRUDService.delete_image` (also `ImageOperation.delete_image`):
resolve the folder (400), check existence (404), then inside a try block
read the metadata, unlink the `.json` sidecar when present, and unlink the
image; any exception in the try block is re-raised as HTTP 500. -/
def deleteImage (dirs : List (String × FPath)) (unlinkFails : List FPath)
    (fs : Fs) (imageId folder : String) : Fs × Except HTTPError DeleteOk :=
  match getDirectory dirs folder with
  | Except.error e => (fs, Except.error e)
  | Except.ok directory =>
    let imagePath := directory ++ [imageId]
    if ! fsExists fs imagePath then
      (fs, Except.error ⟨404, "Image " ++ imageId ++ " not found in " ++ folder ++ " folder"⟩)
    else
      match getMetadata fs imagePath with
      | Except.error _ => (fs, Except.error ⟨500, "Failed to delete image"⟩)
      | Except.ok imageInfo =>
        let metadataPath := withSuffix imagePath ".json"
        if fsExists fs metadataPath then
          match unlink unlinkFails fs metadataPath with
          | Option.none => (fs, Except.error ⟨500, "Failed to delete image"⟩)
          | some fs1 =>
            match unlink unlinkFails fs1 imagePath with
            | Option.none => (fs1, Except.error ⟨500, "Failed to delete image"⟩)
            | some fs2 =>
              (fs2, Except.ok ⟨"Image " ++ imageId ++ " deleted from " ++ folder, imageInfo⟩)
        else
          match unlink unlinkFails fs imagePath with
          | Option.none => (fs, Except.error ⟨500, "Failed to delete image"⟩)
          | some fs1 =>
            (fs1, Except.ok ⟨"Image " ++ imageId ++ " deleted from " ++ folder, imageInfo⟩)

/-- `ImageCRUDService._get_folder_map`: the hardcoded folder-name map,
with `all` bound to every configured directory. -/
def getFolderMap (dirs : List (String × FPath)) : List (String × List FPath) :=
  [("uploaded", [(dirs.lookup "uploaded").getD []]),
   ("edited", [(dirs.lookup "edited").getD []]),
   ("detected", [(dirs.lookup "detected").getD []]),
   ("all", dirs.map (fun e => e.2))]

/-- The extension filter shared by `delete_all_images` and `list_images`. -/
def validExtensions : List String :=
  [".jpg", ".jpeg", ".png", ".gif", ".bmp", ".tiff", ".webp"]

/-- `directory.rglob('*')` filtered to image files: every existing file
strictly below the directory whose lowercased suffix is a valid image
extension. -/
def imageFilesUnder (fs : Fs) (directory : FPath) : List FPath :=
  (fs.map (fun e => e.1)).filter
    (fun p => directory.isPrefixOf p && decide (directory.length < p.length)
      && validExtensions.contains (strLower (nameSuffix (baseName p))))

/-- Successful response of `delete_all_images`: status string and the
number of images counted as deleted. -/
structure ClearOk where
  status : String
  deletedCount : Nat
deriving DecidableEq, Repr

/-- One iteration of the deletion loop of `delete_all_images`: delete the
`.json` sidecar when present, then the image, counting the image when its
unlink succeeds; any exception is caught and the file skipped. -/
def deleteOneImage (unlinkFails : List FPath) (acc : Fs × Nat) (img : FPath) :
    Fs × Nat :=
  let fs := acc.1
  let metadataPath := withSuffix img ".json"
  if fsExists fs metadataPath then
    match unlink unlinkFails fs metadataPath with
    | Option.none => acc
    | some fs1 =>
      match unlink unlinkFails fs1 img with
      | Option.none => (fs1, acc.2)
      | some fs2 => (fs2, acc.2 + 1)
  else
    match unlink unlinkFails fs img with
    | Option.none => acc
    | some fs1 => (fs1, acc.2 + 1)

/-- `ImageCRUDService.delete_all_images` (also
`ImageOperation.delete_all_images`): reject unknown folders with HTTP 400,
then best-effort delete every image file (and sidecar) under each mapped
directory, always answering `status: success` with the count of images
whose deletion succeeded. -/
def deleteAllImages (dirs : List (String × FPath)) (unlinkFails : List FPath)
    (fs : Fs) (folder : String) : Fs × Except HTTPError ClearOk :=
  match (getFolderMap dirs).lookup folder with
  | Option.none => (fs, Except.error ⟨400, "Invalid folder: " ++ folder⟩)
  | some dirList =>
    let out := dirList.foldl
      (fun (acc : Fs × Nat) d => (imageFilesUnder acc.1 d).foldl (deleteOneImage unlinkFails) acc)
      (fs, 0)
    (out.1, Except.ok ⟨"success", out.2⟩)

/-- `ImageCRUDService.move_image` (also `ImageOperation.move_image`):
reject equal folders (400), resolve both folders (400), require the source
file (404), forbid a target collision (409), then inside a try block move
the image, move the `.json` sidecar when present, and return the metadata
of the file at the target path; any exception in the try block is
re-raised as HTTP 500 — after the moves already performed. -/
def moveImage (dirs : List (String × FPath)) (moveFails : List FPath)
    (fs : Fs) (imageId sourceFolder targetFolder : String) :
    Fs × Except HTTPError (List (String × Val)) :=
  if sourceFolder == targetFolder then
    (fs, Except.error ⟨400, "Source and target folders cannot be the same"⟩)
  else
    match getDirectory dirs sourceFolder with
    | Except.error e => (fs, Except.error e)
    | Except.ok sourceDir =>
      match getDirectory dirs targetFolder with
      | Except.error e => (fs, Except.error e)
      | Except.ok targetDir =>
        let sourcePath := sourceDir ++ [imageId]
        let targetPath := targetDir ++ [imageId]
        if ! fsExists fs sourcePath then
          (fs, Except.error ⟨404, "Image " ++ imageId ++ " not found in " ++ sourceFolder⟩)
        else if fsExists fs targetPath then
          (fs, Except.error ⟨409, "Image " ++ imageId ++ " already exists in " ++ targetFolder⟩)
        else
          match shutilMove moveFails fs sourcePath targetPath with
          | Option.none => (fs, Except.error ⟨500, "Failed to move image"⟩)
          | some fs1 =>
            let sourceMetadata := withSuffix sourcePath ".json"
            if fsExists fs1 sourceMetadata then
              match shutilMove moveFails fs1 sourceMetadata (withSuffix targetPath ".json") with
              | Option.none => (fs1, Except.error ⟨500, "Failed to move image"⟩)
              | some fs2 =>
                match getMetadata fs2 targetPath with
                | Except.error _ => (fs2, Except.error ⟨500, "Failed to move image"⟩)
                | Except.ok md => (fs2, Except.ok md)
            else
              match getMetadata fs1 targetPath with
              | Except.error _ => (fs1, Except.error ⟨500, "Failed to move image"⟩)
              | Except.ok md => (fs1, Except.ok md)

/-- One page of `list_images` for a single searched directory
(`ImageCRUDService.list_images` loop body): gather the image files in the
search path, slice out `[offset : offset + limit]`, and build each item's
metadata with the extra `folder` key (files whose metadata extraction
fails are skipped). -/
def listDirPage (fs : Fs) (limit offset : Nat) (subdirectory : Option String)
    (directory : FPath) : List (List (String × Val)) :=
  let searchPath := match subdirectory with
    | some sub => directory ++ [sub]
    | Option.none => directory
  let imageFiles := imageFilesUnder fs searchPath
  ((imageFiles.drop offset).take limit).filterMap (fun p =>
    match getMetadata fs p with
    | Except.ok md => some (md ++ [("folder", Val.str (baseName directory))])
    | Except.error _ => Option.none)

/-- `ImageCRUDService.list_images`: reject unknown folders with HTTP 400,
then concatenate the per-directory pages — pagination is applied inside
each searched directory. -/
def listImages (dirs : List (String × FPath)) (fs : Fs) (folder : String)
    (limit offset : Nat) (subdirectory : Option String) :
    Except HTTPError (List (List (String × Val))) :=
  match (getFolderMap dirs).lookup folder with
  | Option.none => Except.error ⟨400, "Invalid folder: " ++ folder⟩
  | some dirList => Except.ok (dirList.flatMap (listDirPage fs limit offset subdirectory))

/-- Folder map of `FileSearch.list_images`
(`app/services/file_management/file_search.py`), hardcoded over the
duplicate stack's folder names. -/
def fileSearchFolderMap (dirs : List (String × FPath)) : List (String × List FPath) :=
  [("uploads", [(dirs.lookup "uploads").getD []]),
   ("processed", [(dirs.lookup "processed").getD []]),
   ("analyzed", [(dirs.lookup "analyzed").getD []]),
   ("all", [(dirs.lookup "uploads").getD [], (dirs.lookup "processed").getD [],
            (dirs.lookup "analyzed").getD []])]

/-- One page of `FileSearch.list_images` for a single directory: identical
to `listDirPage` except that the slice bounds are clamped explicitly
(`start_idx = min offset len`, `end_idx = min (start_idx + limit) len`). -/
def fileSearchDirPage (fs : Fs) (limit offset : Nat) (subdirectory : Option String)
    (directory : FPath) : List (List (String × Val)) :=
  let searchPath := match subdirectory with
    | some sub => directory ++ [sub]
    | Option.none => directory
  let imageFiles := imageFilesUnder fs searchPath
  let startIdx := min offset imageFiles.length
  let endIdx := min (startIdx + limit) imageFiles.length
  ((imageFiles.drop startIdx).take (endIdx - startIdx)).filterMap (fun p =>
    match getMetadata fs p with
    | Except.ok md => some (md ++ [("folder", Val.str (baseName directory))])
    | Except.error _ => Option.none)

/-- `FileSearch.list_images`: validate the folder against the duplicate
stack's folder map, then concatenate the per-directory pages. -/
def fileSearchListImages (dirs : List (String × FPath)) (fs : Fs) (folder : String)
    (limit offset : Nat) (subdirectory : Option String) :
    Except HTTPError (List (List (String × Val))) :=
  match (fileSearchFolderMap dirs).lookup folder with
  | Option.none => Except.error ⟨400, "Invalid folder: " ++ folder⟩
  | some dirList => Except.ok (dirList.flatMap (fileSearchDirPage fs limit offset subdirectory))

/-! ### Upload storage (`app/services/image/storage/local_storage.py`) -/

/-- An uploaded file: `some info` when Pillow can open it as an image with
that information, `Option.none` when opening raises
`UnidentifiedImageError`. -/
structure UploadedFile where
  content : Option ImgInfo
deriving DecidableEq, Repr

/-- `LocalImageStorage._get_file_name`: validate the format, fetch its
extension, and build the final file name — `uuid4` plus the extension when
no name was given (the fresh random name is passed in explicitly here),
otherwise the given name's stem plus the extension. -/
def getFileName (fmtExts : List (String × String)) (filename : Option String)
    (format : String) (freshName : String) : Except HTTPError String :=
  match validateFormat fmtExts format with
  | Except.error e => Except.error e
  | Except.ok f =>
    match getExtension fmtExts f with
    | Except.error e => Except.error e
    | Except.ok ext =>
      match filename with
      | Option.none => Except.ok (freshName ++ ext)
      | some fn => Except.ok (strStem fn ++ ext)

/-- `LocalImageStorage.save`: build the file name, resolve the folder, then
open and re-encode the image at the destination. On
`UnidentifiedImageError` (invalid image) the destination file is removed
if it exists and HTTP 400 is raised; on any other failure (injected via
`saveFails`) the destination is likewise removed and HTTP 500 is raised.
The saved file's reported format becomes the uppercased requested format;
its pixel information comes from the uploaded image. -/
def saveImage (dirs : List (String × FPath)) (fmtExts : List (String × String))
    (saveFails : List FPath) (fs : Fs) (file : UploadedFile) (folder : String)
    (filename : Option String) (format : String) (freshName : String) :
    Fs × Except HTTPError FPath :=
  match getFileName fmtExts filename format freshName with
  | Except.error e => (fs, Except.error e)
  | Except.ok fname =>
    match getDirectory dirs folder with
    | Except.error e => (fs, Except.error e)
    | Except.ok directory =>
      let filePath := directory ++ [fname]
      match file.content with
      | Option.none =>
        (fsErase fs filePath, Except.error ⟨400, "Uploaded file is not a valid image"⟩)
      | some info =>
        if saveFails.contains filePath then
          (fsErase fs filePath, Except.error ⟨500, "Failed to save image"⟩)
        else
          (fsInsert fs filePath { info with format := strUpper format }, Except.ok filePath)

/-! ### Image editing -/

/-- Errors escaping `_process_image`: either the `HTTPException` raised by
the path lookup (not inside the try block) or the `ValueError` the except
branch raises for processing failures. -/
inductive EditError where
  | http (e : HTTPError)
  | valueError
deriving DecidableEq, Repr

/-- `ImageEditService._get_output_path`
(`app/services/image/image_editor.py`): split the base name, append
`_suffix` when given, and place the result in the `edited` directory. -/
def editOutputPath (dirs : List (String × FPath)) (imagePath : FPath)
    (suffix : Option String) : FPath :=
  let parts := splitextName (baseName imagePath)
  let outputFilename := match suffix with
    | some s => parts.1 ++ "_" ++ s ++ parts.2
    | Option.none => parts.1 ++ parts.2
  (dirs.lookup "edited").getD [] ++ [outputFilename]

/-- `ImageEditService._process_image`: resolve the input in the `uploaded`
folder (propagating its `HTTPException`), then open it, apply the pixel
operation — modelled as a transformation of the image information — and
save the result to the output path; failures inside the try block
(injected via `saveFails`) become a `ValueError`. -/
def processImage (dirs : List (String × FPath)) (saveFails : List FPath)
    (fs : Fs) (imageName : String) (op : ImgInfo → ImgInfo)
    (suffix : Option String) : Fs × Except EditError FPath :=
  match getImagePath dirs fs imageName "uploaded" with
  | Except.error e => (fs, Except.error (EditError.http e))
  | Except.ok imagePath =>
    match fsLookup fs imagePath with
    | Option.none => (fs, Except.error EditError.valueError)
    | some info =>
      let outputPath := editOutputPath dirs imagePath suffix
      if saveFails.contains outputPath then (fs, Except.error EditError.valueError)
      else (fsInsert fs outputPath (op info), Except.ok outputPath)

/-- `ImageProcessing._get_output_path`
(`app/services/processing/processing_controller.py`): mirror the input
path's directory relative to the uploads folder below the processed
folder. The inputs of `_process_image` always sit directly in the uploads
folder, so the relative part is taken to be the path below that folder. -/
def oldOutputPath (imagePath : FPath) (suffix : Option String) : FPath :=
  let parts := splitextName (baseName imagePath)
  let outputFilename := match suffix with
    | some s => parts.1 ++ "_" ++ s ++ parts.2
    | Option.none => baseName imagePath
  let relPath := if uploadsDir.isPrefixOf imagePath.dropLast then
    imagePath.dropLast.drop uploadsDir.length else imagePath.dropLast
  processedDir ++ relPath ++ [outputFilename]

/-- `ImageProcessing._process_image`: the duplicate stack's editing
pipeline — resolve the input in the `uploads` folder via the query
service's `get_image_path`, apply the operation, save under the processed
folder. -/
def oldProcessImage (saveFails : List FPath) (fs : Fs) (imageName : String)
    (op : ImgInfo → ImgInfo) (suffix : Option String) : Fs × Except EditError FPath :=
  match getImagePath getFolders fs imageName "uploads" with
  | Except.error e => (fs, Except.error (EditError.http e))
  | Except.ok imagePath =>
    match fsLookup fs imagePath with
    | Option.none => (fs, Except.error EditError.valueError)
    | some info =>
      let outputPath := oldOutputPath imagePath suffix
      if saveFails.contains outputPath then (fs, Except.error EditError.valueError)
      else (fsInsert fs outputPath (op info), Except.ok outputPath)

/-- `img.crop((left, upper, right, lower))`: the cropped image's size is
`(right - left, lower - upper)` (clamped at zero). -/
def cropOp (left upper right lower : Int) (i : ImgInfo) : ImgInfo :=
  { i with width := (right - left).toNat, height := (lower - upper).toNat }

/-- `img.resize((width, height))`. -/
def resizeOp (width height : Nat) (i : ImgInfo) : ImgInfo :=
  { i with width := width, height := height }

/-- `ImageOps.grayscale(img)`: converts the image to mode `L`. -/
def grayscaleOp (i : ImgInfo) : ImgInfo :=
  { i with mode := "L" }

/-- `ImageProcessing.crop_image`: crop via `_process_image` with suffix
`cropped`. -/
def cropImage (saveFails : List FPath) (fs : Fs) (imageName : String)
    (left upper right lower : Int) : Fs × Except EditError FPath :=
  oldProcessImage saveFails fs imageName (cropOp left upper right lower) (some "cropped")

/-- `ImageProcessing.resize_image`: resize via `_process_image` with suffix
`resized`. -/
def oldResizeImage (saveFails : List FPath) (fs : Fs) (imageName : String)
    (width height : Nat) : Fs × Except EditError FPath :=
  oldProcessImage saveFails fs imageName (resizeOp width height) (some "resized")

/-- `ImageEditService.resize_image`: resize via `_process_image` with
suffix `resized`. -/
def resizeImage (dirs : List (String × FPath)) (saveFails : List FPath)
    (fs : Fs) (imageName : String) (width height : Nat) : Fs × Except EditError FPath :=
  processImage dirs saveFails fs imageName (resizeOp width height) (some "resized")

/-- `ImageEditService.convert_to_grayscale`: grayscale via `_process_image`
with suffix `gray`. -/
def convertToGrayscale (dirs : List (String × FPath)) (saveFails : List FPath)
    (fs : Fs) (imageName : String) : Fs × Except EditError FPath :=
  processImage dirs saveFails fs imageName grayscaleOp (some "gray")

/-! ### Object detection output
(`app/services/detection/detection_service.py`) -/

/-- `ObjectDetectionService.get_bounding_boxes`, output-side: draw the
detections on a copy of the image (a pixel-level operation that leaves the
modelled image information unchanged), name it `name_bounding_boxes.ext`,
and save it through `LocalImageStorage.save` into the `detected` folder
with the original image's format. Opening a missing input propagates as an
unhandled error. -/
def getBoundingBoxes (dirs : List (String × FPath)) (fmtExts : List (String × String))
    (saveFails : List FPath) (fs : Fs) (imagePath : FPath) :
    Fs × Except HTTPError FPath :=
  match fsLookup fs imagePath with
  | Option.none => (fs, Except.error ⟨500, "cannot open image"⟩)
  | some info =>
    let parts := splitextName (baseName imagePath)
    let newFilename := parts.1 ++ "_bounding_boxes" ++ parts.2
    saveImage dirs fmtExts saveFails fs ⟨some info⟩ "detected" (some newFilename)
      info.format ""

/-! ### Helper lemmas -/

theorem lookup_isSome_eq_contains {γ : Type} (l : List (String × γ)) (k : String) :
    (l.lookup k).isSome = (l.map (fun e => e.1)).contains k := by
  induction l with
  | nil => rfl
  | cons e t ih =>
    cases e with
    | mk a b =>
      by_cases h : k = a
      · subst h
        simp [List.lookup]
      · have hba : (k == a) = false := by simp [h]
        simp [List.lookup, hba, ih, List.contains_cons]

theorem fsErase_cons (e : FPath × ImgInfo) (t : Fs) (p : FPath) :
    fsErase (e :: t) p = if e.1 = p then fsErase t p else e :: fsErase t p := by
  by_cases h : e.1 = p <;> simp [fsErase, List.filter_cons, h]

theorem fsLookup_cons (e : FPath × ImgInfo) (t : Fs) (q : FPath) :
    fsLookup (e :: t) q = if e.1 = q then some e.2 else fsLookup t q := by
  by_cases h : e.1 = q <;> simp [fsLookup, List.find?_cons, h]

theorem fsLookup_erase (fs : Fs) (p q : FPath) :
    fsLookup (fsErase fs p) q = if q = p then Option.none else fsLookup fs q := by
  induction fs with
  | nil => simp [fsErase, fsLookup]
  | cons e t ih =>
    rw [fsErase_cons]
    by_cases hep : e.1 = p
    · rw [if_pos hep, ih, fsLookup_cons]
      by_cases hqp : q = p
      · simp [hqp]
      · have heq : ¬ e.1 = q := fun hc => hqp (by rw [← hc, hep])
        simp [hqp, heq]
    · rw [if_neg hep, fsLookup_cons]
      by_cases heq : e.1 = q
      · have hqp : ¬ q = p := fun hc => hep (by rw [heq, hc])
        rw [if_pos heq, fsLookup_cons, if_pos heq, if_neg hqp]
      · rw [if_neg heq, ih, fsLookup_cons]
        by_cases hqp : q = p
        · simp [hqp]
        · simp [hqp, heq]

theorem fsLookup_insert (fs : Fs) (p q : FPath) (i : ImgInfo) :
    fsLookup (fsInsert fs p i) q = if q = p then some i else fsLookup fs q := by
  show fsLookup ((p, i) :: fsErase fs p) q = _
  rw [fsLookup_cons, fsLookup_erase]
  by_cases h : q = p
  · simp [h]
  · have hne : ¬ p = q := fun hc => h hc.symm
    simp [h, hne]

theorem fsLookup_insert_self (fs : Fs) (p : FPath) (i : ImgInfo) :
    fsLookup (fsInsert fs p i) p = some i := by
  simp [fsLookup_insert]

theorem fsExists_insert_self (fs : Fs) (p : FPath) (i : ImgInfo) :
    fsExists (fsInsert fs p i) p = true := by
  simp [fsExists, fsLookup_insert_self]

theorem fsExists_erase_self (fs : Fs) (p : FPath) :
    fsExists (fsErase fs p) p = false := by
  simp [fsExists, fsLookup_erase]

theorem validateFolder_cases (f : String) (h : validateFolder getDirectories f = true) :
    f = "uploaded" ∨ f = "edited" ∨ f = "detected" := by
  by_cases h1 : f = "uploaded"
  · exact Or.inl h1
  by_cases h2 : f = "edited"
  · exact Or.inr (Or.inl h2)
  by_cases h3 : f = "detected"
  · exact Or.inr (Or.inr h3)
  exfalso
  have e1 : (f == "uploaded") = false := beq_eq_false_iff_ne.mpr h1
  have e2 : (f == "edited") = false := beq_eq_false_iff_ne.mpr h2
  have e3 : (f == "detected") = false := beq_eq_false_iff_ne.mpr h3
  simp [validateFolder, getDirectories, List.lookup, e1, e2, e3] at h

theorem getDirectory_valid (dirs : List (String × FPath)) (f : String)
    (h : validateFolder dirs f = true) :
    getDirectory dirs f = Except.ok ((dirs.lookup f).getD []) := by
  simp [getDirectory, h]

theorem getDirectory_invalid (dirs : List (String × FPath)) (f : String)
    (h : validateFolder dirs f = false) :
    getDirectory dirs f = Except.error ⟨400, "Invalid folder: " ++ f⟩ := by
  simp [getDirectory, h]

theorem validateFormat_isOk (exts : List (String × String)) (f : String) :
    isOkE (validateFormat exts f) = (exts.map (fun e => e.1)).contains (strUpper f) := by
  rw [← lookup_isSome_eq_contains]
  cases h : (exts.lookup (strUpper f)).isSome <;> simp [validateFormat, h, isOkE]

theorem validateFormat_ok_of (exts : List (String × String)) (f : String)
    (h : (exts.lookup (strUpper f)).isSome = true) :
    validateFormat exts f = Except.ok (strUpper f) := by
  simp [validateFormat, h]

theorem validateFormat_error_of (exts : List (String × String)) (f : String)
    (h : (exts.lookup (strUpper f)).isSome = false) :
    validateFormat exts f
      = Except.error ⟨400, "Unsupported image format: " ++ (strUpper f)
          ++ ". Supported formats: " ++ String.intercalate ", " (exts.map (fun e => e.1))⟩ := by
  simp [validateFormat, h]

theorem getMetadata_of_lookup (fs : Fs) (p : FPath) (info : ImgInfo)
    (h : fsLookup fs p = some info) :
    getMetadata fs p =
      Except.ok [("filename", Val.str (baseName p)), ("format", Val.str info.format),
        ("mode", Val.str info.mode), ("width", Val.nat info.width),
        ("height", Val.nat info.height), ("size_bytes", Val.nat info.sizeBytes),
        ("path", Val.str (joinPath p)), ("url", Val.null)] := by
  simp [getMetadata, h]

/-! ## Claims -/

/-! ### C4 — metadata dictionary keys -/

def c4path : FPath := ["app", "static", "uploaded", "a.jpg"]

def c4fs : Fs := [(c4path, ⟨"JPEG", "RGB", 1, 2, 3⟩)]

/-- C4, counterexample: on a concrete openable image the metadata
dictionary's keys are `filename, format, mode, width, height, size_bytes,
path, url` — there is no key `size` (the byte size travels under
`size_bytes`) and there is an extra `url` key, so the keys are not exactly
`filename, format, mode, width, height, size, path` as claimed. -/
theorem metadata_keys_counterexample :
    Except.map (fun md => md.map (fun e => e.1)) (getMetadata c4fs c4path)
        = Except.ok ["filename", "format", "mode", "width", "height", "size_bytes", "path", "url"]
      ∧ (["filename", "format", "mode", "width", "height", "size_bytes", "path", "url"].contains
          "size") = false
      ∧ ["filename", "format", "mode", "width", "height", "size_bytes", "path", "url"]
          ≠ ["filename", "format", "mode", "width", "height", "size", "path"] :=
  ⟨rfl, by decide, by decide⟩

/-- C4 (amended): for every image file that can be opened, `get_metadata`
returns a dictionary whose keys are exactly `filename`, `format`, `mode`,
`width`, `height`, `size_bytes`, `path`, and `url` (in that order), with
each value derived from the opened image object, the file's name, byte
size and path — the byte size is keyed `size_bytes`, not `size`, and the
extra `url` key is always `None`. -/
theorem metadata_dict_amended (fs : Fs) (p : FPath) (info : ImgInfo)
    (h : fsLookup fs p = some info) :
    getMetadata fs p =
      Except.ok [("filename", Val.str (baseName p)), ("format", Val.str info.format),
        ("mode", Val.str info.mode), ("width", Val.nat info.width),
        ("height", Val.nat info.height), ("size_bytes", Val.nat info.sizeBytes),
        ("path", Val.str (joinPath p)), ("url", Val.null)] :=
  getMetadata_of_lookup fs p info h

/-- C4 witness: the amended statement instantiated at a concrete file. -/
theorem metadata_dict_amended_witness :
    getMetadata c4fs c4path =
      Except.ok [("filename", Val.str (baseName c4path)), ("format", Val.str "JPEG"),
        ("mode", Val.str "RGB"), ("width", Val.nat 1),
        ("height", Val.nat 2), ("size_bytes", Val.nat 3),
        ("path", Val.str (joinPath c4path)), ("url", Val.null)] :=
  metadata_dict_amended c4fs c4path ⟨"JPEG", "RGB", 1, 2, 3⟩ rfl

/-! ### C6 — supported formats -/

/-- C6: format validation succeeds, returning the uppercased format, if
and only if the uppercased format is one of the supported formats JPEG,
PNG, GIF, BMP, TIFF, WEBP with JPG as an alias (the key set of
`ImageVerfication.FORMAT_EXTENSIONS`); extension lookup returns the
format's file extension; any other format raises HTTP 400
`Unsupported image format`. The last conjunct states the same
success condition for the injected-dictionary variant
(`SimpleImageValidator.validate_format`), parameterised by its
format-extension dictionary. -/
theorem format_validation_spec :
    (∀ f : String, isOkE (validateFormat FORMAT_EXTENSIONS f)
        = (["JPEG", "JPG", "PNG", "GIF", "BMP", "TIFF", "WEBP"].contains (strUpper f)))
    ∧ (∀ f : String,
        (["JPEG", "JPG", "PNG", "GIF", "BMP", "TIFF", "WEBP"].contains (strUpper f)) = true →
          validateFormat FORMAT_EXTENSIONS f = Except.ok (strUpper f))
    ∧ (∀ f : String,
        (["JPEG", "JPG", "PNG", "GIF", "BMP", "TIFF", "WEBP"].contains (strUpper f)) = false →
          validateFormat FORMAT_EXTENSIONS f
            = Except.error ⟨400, "Unsupported image format: " ++ (strUpper f)
                ++ ". Supported formats: " ++ "JPEG, JPG, PNG, GIF, BMP, TIFF, WEBP"⟩)
    ∧ (getExtension FORMAT_EXTENSIONS "jpeg" = Except.ok ".jpg"
        ∧ getExtension FORMAT_EXTENSIONS "jpg" = Except.ok ".jpg"
        ∧ getExtension FORMAT_EXTENSIONS "png" = Except.ok ".png"
        ∧ getExtension FORMAT_EXTENSIONS "gif" = Except.ok ".gif"
        ∧ getExtension FORMAT_EXTENSIONS "bmp" = Except.ok ".bmp"
        ∧ getExtension FORMAT_EXTENSIONS "tiff" = Except.ok ".tiff"
        ∧ getExtension FORMAT_EXTENSIONS "webp" = Except.ok ".webp")
    ∧ (∀ (exts : List (String × String)) (f : String),
        isOkE (validateFormat exts f) = (exts.map (fun e => e.1)).contains (strUpper f)) := by
  refine ⟨?_, ?_, ?_, ?_, ?_⟩
  · intro f
    exact validateFormat_isOk FORMAT_EXTENSIONS f
  · intro f h
    apply validateFormat_ok_of
    rw [lookup_isSome_eq_contains]
    exact h
  · intro f h
    have hl : (FORMAT_EXTENSIONS.lookup (strUpper f)).isSome = false := by
      rw [lookup_isSome_eq_contains]
      exact h
    rw [validateFormat_error_of FORMAT_EXTENSIONS f hl]
    rfl
  · exact ⟨rfl, rfl, rfl, rfl, rfl, rfl, rfl⟩
  · intro exts f
    exact validateFormat_isOk exts f

/-- C6 witness: the alias `jpg` validates to `JPG`, while `svg` is
rejected with HTTP 400. -/
theorem format_validation_spec_witness :
    (["JPEG", "JPG", "PNG", "GIF", "BMP", "TIFF", "WEBP"].contains (strUpper "jpg")) = true
      ∧ validateFormat FORMAT_EXTENSIONS "jpg" = Except.ok (strUpper "jpg")
      ∧ validateFormat FORMAT_EXTENSIONS "svg"
          = Except.error ⟨400, "Unsupported image format: " ++ strUpper "svg"
              ++ ". Supported formats: " ++ "JPEG, JPG, PNG, GIF, BMP, TIFF, WEBP"⟩ :=
  ⟨by decide, format_validation_spec.2.1 "jpg" (by decide),
    format_validation_spec.2.2.1 "svg" (by decide)⟩

/-! ### C3 — folder validation -/

/-- C3: a single-folder path lookup (`DirectoryManager.get_directory`)
proceeds if and only if the folder name is one of
`uploaded`, `edited`, `detected`; the listing and bulk-delete operations
additionally accept `all` (this settles the claim's open question: `all`
IS accepted by `list_images` and `delete_all_images`); the duplicate
stack's listing accepts `uploads`, `processed`, `analyzed`, `all`; any
other folder name yields HTTP 400 `Invalid folder`. -/
theorem folder_validation_spec :
    (∀ folder : String, isOkE (getDirectory getDirectories folder)
        = (["uploaded", "edited", "detected"].contains folder))
    ∧ (∀ (folder : String) (fs : Fs) (unlinkFails : List FPath),
        isOkE (deleteAllImages getDirectories unlinkFails fs folder).2
          = (["uploaded", "edited", "detected", "all"].contains folder))
    ∧ (∀ (folder : String) (fs : Fs) (limit offset : Nat) (sub : Option String),
        isOkE (listImages getDirectories fs folder limit offset sub)
          = (["uploaded", "edited", "detected", "all"].contains folder))
    ∧ (∀ (folder : String) (fs : Fs) (limit offset : Nat) (sub : Option String),
        isOkE (fileSearchListImages getFolders fs folder limit offset sub)
          = (["uploads", "processed", "analyzed", "all"].contains folder))
    ∧ (∀ folder : String, (["uploaded", "edited", "detected"].contains folder) = false →
        getDirectory getDirectories folder = Except.error ⟨400, "Invalid folder: " ++ folder⟩) := by
  refine ⟨?_, ?_, ?_, ?_, ?_⟩
  · intro folder
    have h1 : isOkE (getDirectory getDirectories folder) = validateFolder getDirectories folder := by
      cases h : validateFolder getDirectories folder <;> simp [getDirectory, h, isOkE]
    rw [h1]
    exact lookup_isSome_eq_contains getDirectories folder
  · intro folder fs unlinkFails
    have hk : (["uploaded", "edited", "detected", "all"] : List String)
        = (getFolderMap getDirectories).map (fun e => e.1) := rfl
    rw [hk, ← lookup_isSome_eq_contains]
    cases hl : (getFolderMap getDirectories).lookup folder <;>
      simp [deleteAllImages, hl, isOkE]
  · intro folder fs limit offset sub
    have hk : (["uploaded", "edited", "detected", "all"] : List String)
        = (getFolderMap getDirectories).map (fun e => e.1) := rfl
    rw [hk, ← lookup_isSome_eq_contains]
    cases hl : (getFolderMap getDirectories).lookup folder <;>
      simp [listImages, hl, isOkE]
  · intro folder fs limit offset sub
    have hk : (["uploads", "processed", "analyzed", "all"] : List String)
        = (fileSearchFolderMap getFolders).map (fun e => e.1) := rfl
    rw [hk, ← lookup_isSome_eq_contains]
    cases hl : (fileSearchFolderMap getFolders).lookup folder <;>
      simp [fileSearchListImages, hl, isOkE]
  · intro folder h
    apply getDirectory_invalid
    have hk : (["uploaded", "edited", "detected"] : List String)
        = getDirectories.map (fun e => e.1) := rfl
    rw [hk, ← lookup_isSome_eq_contains] at h
    exact h

/-- C3 witness: `static` is not a folder name and is rejected with 400,
while `all` is accepted by the bulk clear. -/
theorem folder_validation_spec_witness :
    (["uploaded", "edited", "detected"].contains "static") = false
      ∧ getDirectory getDirectories "static" = Except.error ⟨400, "Invalid folder: " ++ "static"⟩
      ∧ isOkE (deleteAllImages getDirectories [] [] "all").2 = true :=
  ⟨by decide, folder_validation_spec.2.2.2.2 "static" (by decide),
    by rw [folder_validation_spec.2.1 "all" [] []]; decide⟩

/-! ### C9 — edits resolve their input in the uploaded folder only -/

/-- C9: `_process_image` (the common pipeline behind resize, grayscale,
rotate, blur, sharpen, brightness and contrast) resolves its input image
with `get_image_path(image_name, "uploaded")` (respectively `"uploads"`
in the duplicate stack), so whenever the name is absent from that folder
— even if present in the edited or detected folder — the edit raises
HTTP 404 and leaves the filesystem unchanged; hence the output of one
edit (stored in the edited folder) can never be the input of another. -/
theorem edit_input_resolution :
    (∀ (fs : Fs) (imageName : String) (op : ImgInfo → ImgInfo) (suffix : Option String)
        (saveFails : List FPath),
        fsExists fs (uploadedDir ++ [imageName]) = false →
        processImage getDirectories saveFails fs imageName op suffix
          = (fs, Except.error (EditError.http
              ⟨404, "Image " ++ imageName ++ " not found in " ++ "uploaded"⟩)))
    ∧ (∀ (fs : Fs) (imageName : String) (op : ImgInfo → ImgInfo) (suffix : Option String)
        (saveFails : List FPath),
        fsExists fs (uploadsDir ++ [imageName]) = false →
        oldProcessImage saveFails fs imageName op suffix
          = (fs, Except.error (EditError.http
              ⟨404, "Image " ++ imageName ++ " not found in " ++ "uploads"⟩))) := by
  constructor
  · intro fs imageName op suffix saveFails h
    have hd : getDirectory getDirectories "uploaded" = Except.ok uploadedDir := rfl
    simp [processImage, getImagePath, hd, h]
  · intro fs imageName op suffix saveFails h
    have hd : getDirectory getFolders "uploads" = Except.ok uploadsDir := rfl
    simp [oldProcessImage, getImagePath, hd, h]

/-- C9 witness: editing an image that exists only in the edited folder
raises 404. -/
theorem edit_input_resolution_witness :
    fsExists [(editedDir ++ ["a.jpg"], (⟨"JPEG", "RGB", 1, 2, 3⟩ : ImgInfo))]
        (uploadedDir ++ ["a.jpg"]) = false
      ∧ processImage getDirectories [] [(editedDir ++ ["a.jpg"], ⟨"JPEG", "RGB", 1, 2, 3⟩)]
          "a.jpg" grayscaleOp (some "gray")
        = ([(editedDir ++ ["a.jpg"], ⟨"JPEG", "RGB", 1, 2, 3⟩)],
           Except.error (EditError.http
             ⟨404, "Image " ++ "a.jpg" ++ " not found in " ++ "uploaded"⟩)) :=
  ⟨by decide,
    edit_input_resolution.1 [(editedDir ++ ["a.jpg"], ⟨"JPEG", "RGB", 1, 2, 3⟩)]
      "a.jpg" grayscaleOp (some "gray") [] (by decide)⟩

/-! ### C8 — the crop transformation -/

/-- C8: the service code exposes a crop operation
(`ImageProcessing.crop_image`, served by the `/process/crop/` route):
applied to an image present in the uploads folder it saves the cropped
result — of size `(right - left, lower - upper)` — under the processed
folder with suffix `_cropped`, alongside the other transformations of the
same `_process_image` pipeline (resize shown here; grayscale, rotate,
blur, sharpen, brightness and contrast are wrappers of the same
pipeline). -/
theorem crop_endpoint_spec (fs : Fs) (imageName : String) (info : ImgInfo)
    (left upper right lower : Int) (width height : Nat)
    (h : fsLookup fs (uploadsDir ++ [imageName]) = some info) :
    (cropImage [] fs imageName left upper right lower
        = (fsInsert fs (oldOutputPath (uploadsDir ++ [imageName]) (some "cropped"))
            (cropOp left upper right lower info),
          Except.ok (oldOutputPath (uploadsDir ++ [imageName]) (some "cropped"))))
      ∧ (cropOp left upper right lower info).width = (right - left).toNat
      ∧ (cropOp left upper right lower info).height = (lower - upper).toNat
      ∧ processedDir.isPrefixOf (oldOutputPath (uploadsDir ++ [imageName]) (some "cropped")) = true
      ∧ (oldResizeImage [] fs imageName width height
          = (fsInsert fs (oldOutputPath (uploadsDir ++ [imageName]) (some "resized"))
              (resizeOp width height info),
            Except.ok (oldOutputPath (uploadsDir ++ [imageName]) (some "resized")))) := by
  have hex : fsExists fs (uploadsDir ++ [imageName]) = true := by
    simp [fsExists, h]
  have hd : getDirectory getFolders "uploads" = Except.ok uploadsDir := rfl
  refine ⟨?_, rfl, rfl, ?_, ?_⟩
  · simp [cropImage, oldProcessImage, getImagePath, hd, hex, h]
  · rw [show oldOutputPath (uploadsDir ++ [imageName]) (some "cropped")
        = processedDir ++ ((uploadsDir ++ [imageName]).dropLast.drop uploadsDir.length
            ++ [(splitextName (baseName (uploadsDir ++ [imageName]))).1 ++ "_" ++ "cropped"
                ++ (splitextName (baseName (uploadsDir ++ [imageName]))).2]) from ?_]
    · rw [List.isPrefixOf_iff_prefix]
      exact List.prefix_append processedDir _
    · simp [oldOutputPath, List.dropLast_concat, List.isPrefixOf_iff_prefix]
  · simp [oldResizeImage, oldProcessImage, getImagePath, hd, hex, h]

/-- C8 witness: crop a concrete 10×20 uploaded image to the box
`(1, 2, 5, 9)`. -/
theorem crop_endpoint_spec_witness :
    fsLookup [(uploadsDir ++ ["t.png"], (⟨"PNG", "RGB", 10, 20, 333⟩ : ImgInfo))]
        (uploadsDir ++ ["t.png"]) = some ⟨"PNG", "RGB", 10, 20, 333⟩
      ∧ cropImage [] [(uploadsDir ++ ["t.png"], ⟨"PNG", "RGB", 10, 20, 333⟩)]
          "t.png" 1 2 5 9
        = (fsInsert [(uploadsDir ++ ["t.png"], ⟨"PNG", "RGB", 10, 20, 333⟩)]
            (oldOutputPath (uploadsDir ++ ["t.png"]) (some "cropped"))
            (cropOp 1 2 5 9 ⟨"PNG", "RGB", 10, 20, 333⟩),
          Except.ok (oldOutputPath (uploadsDir ++ ["t.png"]) (some "cropped"))) :=
  ⟨rfl,
    (crop_endpoint_spec [(uploadsDir ++ ["t.png"], ⟨"PNG", "RGB", 10, 20, 333⟩)]
      "t.png" ⟨"PNG", "RGB", 10, 20, 333⟩ 1 2 5 9 3 4 rfl).1⟩

/-! ### C10 — pagination is applied per searched directory -/

theorem drop_take_clamp {α : Type} (l : List α) (o k : Nat) :
    ((l.drop (min o l.length)).take (min (min o l.length + k) l.length - min o l.length))
      = (l.drop o).take k := by
  by_cases ho : o ≤ l.length
  · rw [min_eq_left ho]
    by_cases hk : o + k ≤ l.length
    · rw [min_eq_left hk]
      congr 1
      omega
    · rw [min_eq_right (le_of_not_le hk)]
      have hlen : (l.drop o).length = l.length - o := List.length_drop o l
      rw [List.take_of_length_le (by omega), List.take_of_length_le (by omega)]
  · have h1 : l.length ≤ o := le_of_not_le ho
    rw [min_eq_right h1, List.drop_eq_nil_of_le h1, List.drop_eq_nil_of_le (le_refl _)]
    simp

/-- Sample filesystem for the pagination discriminator: two images in the
uploaded folder and two in the edited folder. -/
def c10fs : Fs :=
  [(uploadedDir ++ ["a.jpg"], ⟨"JPEG", "RGB", 1, 1, 1⟩),
   (uploadedDir ++ ["b.jpg"], ⟨"JPEG", "RGB", 1, 1, 1⟩),
   (editedDir ++ ["c.jpg"], ⟨"JPEG", "RGB", 1, 1, 1⟩),
   (editedDir ++ ["d.jpg"], ⟨"JPEG", "RGB", 1, 1, 1⟩)]

/-- C10: `list_images` paginates inside each searched directory — for the
folder `all` the result is the concatenation of the three per-directory
pages, each page being the slice `[offset : offset + limit]` of that
directory's files, so each directory contributes at most `limit` items,
the total can reach `3 * limit`, and an offset never skips items across a
directory boundary. `FileSearch.list_images` (explicitly clamped slice
bounds) computes the same pages. The final conjunct discriminates against
global pagination: with two images in each of two folders, `limit = 1`
and `offset = 1` return two items, where a global slice would return one. -/
theorem list_pagination_per_directory :
    (∀ (fs : Fs) (limit offset : Nat) (sub : Option String),
        listImages getDirectories fs "all" limit offset sub
          = Except.ok (listDirPage fs limit offset sub uploadedDir
              ++ (listDirPage fs limit offset sub editedDir
                  ++ listDirPage fs limit offset sub detectedDir)))
    ∧ (∀ (fs : Fs) (limit offset : Nat) (sub : Option String) (d : FPath),
        (listDirPage fs limit offset sub d).length ≤ limit)
    ∧ (∀ (fs : Fs) (limit offset : Nat) (sub : Option String),
        (listDirPage fs limit offset sub uploadedDir
            ++ (listDirPage fs limit offset sub editedDir
                ++ listDirPage fs limit offset sub detectedDir)).length ≤ 3 * limit)
    ∧ (∀ (fs : Fs) (limit offset : Nat) (sub : Option String) (d : FPath),
        fileSearchDirPage fs limit offset sub d = listDirPage fs limit offset sub d)
    ∧ (∀ (fs : Fs) (limit offset : Nat) (sub : Option String),
        fileSearchListImages getFolders fs "all" limit offset sub
          = Except.ok (fileSearchDirPage fs limit offset sub uploadsDir
              ++ (fileSearchDirPage fs limit offset sub processedDir
                  ++ fileSearchDirPage fs limit offset sub analyzedDir)))
    ∧ ((match listImages getDirectories c10fs "all" 1 1 Option.none with
        | Except.ok l => l.length
        | Except.error _ => 0) = 2) := by
  have hpage : ∀ (fs : Fs) (limit offset : Nat) (sub : Option String) (d : FPath),
      (listDirPage fs limit offset sub d).length ≤ limit := by
    intro fs limit offset sub d
    calc (listDirPage fs limit offset sub d).length
        ≤ (((imageFilesUnder fs (match sub with
              | some s => d ++ [s]
              | Option.none => d)).drop offset).take limit).length :=
          List.length_filterMap_le _ _
      _ ≤ limit := by
          rw [List.length_take]
          exact min_le_left _ _
  refine ⟨?_, hpage, ?_, ?_, ?_, ?_⟩
  · intro fs limit offset sub
    have hl : (getFolderMap getDirectories).lookup "all"
        = some [uploadedDir, editedDir, detectedDir] := rfl
    simp [listImages, hl, List.flatMap_cons, List.flatMap_nil]
  · intro fs limit offset sub
    have h1 := hpage fs limit offset sub uploadedDir
    have h2 := hpage fs limit offset sub editedDir
    have h3 := hpage fs limit offset sub detectedDir
    simp [List.length_append]
    omega
  · intro fs limit offset sub d
    simp only [fileSearchDirPage, listDirPage]
    rw [drop_take_clamp]
  · intro fs limit offset sub
    have hl : (fileSearchFolderMap getFolders).lookup "all"
        = some [uploadsDir, processedDir, analyzedDir] := rfl
    simp [fileSearchListImages, hl, List.flatMap_cons, List.flatMap_nil]
  · rfl

/-- C10 witness: the per-directory slice instantiated concretely — with
`limit = 1`, `offset = 1` over `c10fs`, each of the uploaded and edited
pages holds exactly one item. -/
theorem list_pagination_per_directory_witness :
    (listDirPage c10fs 1 1 Option.none uploadedDir).length ≤ 1
      ∧ (listDirPage c10fs 1 1 Option.none uploadedDir).length = 1
      ∧ (listDirPage c10fs 1 1 Option.none editedDir).length = 1 :=
  ⟨list_pagination_per_directory.2.1 c10fs 1 1 Option.none uploadedDir, rfl, rfl⟩

/-! ### Helper lemmas for `move_image` -/

theorem withSuffix_concat (d : FPath) (x s : String) :
    withSuffix (d ++ [x]) s = d ++ [nameStem x ++ s] := by
  simp [withSuffix, List.dropLast_concat]

theorem append_singleton_ne {d1 d2 : FPath} (x y : String)
    (hlen : d1.length = d2.length) (hne : d1 ≠ d2) : d1 ++ [x] ≠ d2 ++ [y] := by
  intro h
  rcases List.append_inj h hlen with ⟨h1, _⟩
  exact hne h1

theorem valid_dirs_facts (sf tf : String)
    (hs : validateFolder getDirectories sf = true)
    (ht : validateFolder getDirectories tf = true)
    (hne : sf ≠ tf) :
    (getDirectories.lookup sf).getD [] ≠ (getDirectories.lookup tf).getD []
      ∧ ((getDirectories.lookup sf).getD []).length = ((getDirectories.lookup tf).getD []).length := by
  rcases validateFolder_cases sf hs with h1 | h1 | h1 <;>
    rcases validateFolder_cases tf ht with h2 | h2 | h2 <;>
      subst h1 <;> subst h2 <;>
        first
          | exact absurd rfl hne
          | exact ⟨by decide, by decide⟩

theorem moveImage_same_folder (dirs : List (String × FPath)) (mv : List FPath)
    (fs : Fs) (id f : String) :
    moveImage dirs mv fs id f f
      = (fs, Except.error ⟨400, "Source and target folders cannot be the same"⟩) := by
  simp [moveImage]

theorem moveImage_invalid_source (dirs : List (String × FPath)) (mv : List FPath)
    (fs : Fs) (id sf tf : String) (hne : sf ≠ tf)
    (hs : validateFolder dirs sf = false) :
    moveImage dirs mv fs id sf tf
      = (fs, Except.error ⟨400, "Invalid folder: " ++ sf⟩) := by
  have hbe : (sf == tf) = false := beq_eq_false_iff_ne.mpr hne
  simp [moveImage, hbe, getDirectory_invalid dirs sf hs]

theorem moveImage_invalid_target (dirs : List (String × FPath)) (mv : List FPath)
    (fs : Fs) (id sf tf : String) (hne : sf ≠ tf)
    (hs : validateFolder dirs sf = true)
    (ht : validateFolder dirs tf = false) :
    moveImage dirs mv fs id sf tf
      = (fs, Except.error ⟨400, "Invalid folder: " ++ tf⟩) := by
  have hbe : (sf == tf) = false := beq_eq_false_iff_ne.mpr hne
  simp [moveImage, hbe, getDirectory_valid dirs sf hs, getDirectory_invalid dirs tf ht]

theorem moveImage_missing_source (dirs : List (String × FPath)) (mv : List FPath)
    (fs : Fs) (id sf tf : String) (hne : sf ≠ tf)
    (hs : validateFolder dirs sf = true)
    (ht : validateFolder dirs tf = true)
    (hsrc : fsExists fs ((dirs.lookup sf).getD [] ++ [id]) = false) :
    moveImage dirs mv fs id sf tf
      = (fs, Except.error ⟨404, "Image " ++ id ++ " not found in " ++ sf⟩) := by
  have hbe : (sf == tf) = false := beq_eq_false_iff_ne.mpr hne
  simp [moveImage, hbe, getDirectory_valid dirs sf hs, getDirectory_valid dirs tf ht, hsrc]

theorem moveImage_collision (dirs : List (String × FPath)) (mv : List FPath)
    (fs : Fs) (id sf tf : String) (hne : sf ≠ tf)
    (hs : validateFolder dirs sf = true)
    (ht : validateFolder dirs tf = true)
    (hsrc : fsExists fs ((dirs.lookup sf).getD [] ++ [id]) = true)
    (htgt : fsExists fs ((dirs.lookup tf).getD [] ++ [id]) = true) :
    moveImage dirs mv fs id sf tf
      = (fs, Except.error ⟨409, "Image " ++ id ++ " already exists in " ++ tf⟩) := by
  have hbe : (sf == tf) = false := beq_eq_false_iff_ne.mpr hne
  simp [moveImage, hbe, getDirectory_valid dirs sf hs, getDirectory_valid dirs tf ht, hsrc, htgt]

theorem moveImage_move_fail (dirs : List (String × FPath)) (mv : List FPath)
    (fs : Fs) (id sf tf : String) (hne : sf ≠ tf)
    (hs : validateFolder dirs sf = true)
    (ht : validateFolder dirs tf = true)
    (hsrc : fsExists fs ((dirs.lookup sf).getD [] ++ [id]) = true)
    (htgt : fsExists fs ((dirs.lookup tf).getD [] ++ [id]) = false)
    (hm1 : mv.contains ((dirs.lookup sf).getD [] ++ [id]) = true) :
    moveImage dirs mv fs id sf tf
      = (fs, Except.error ⟨500, "Failed to move image"⟩) := by
  have hbe : (sf == tf) = false := beq_eq_false_iff_ne.mpr hne
  have hmem : ((dirs.lookup sf).getD [] ++ [id]) ∈ mv := by
    simpa using hm1
  have hmv : shutilMove mv fs ((dirs.lookup sf).getD [] ++ [id]) ((dirs.lookup tf).getD [] ++ [id])
      = Option.none := by
    simp [shutilMove, hmem]
  simp [moveImage, hbe, getDirectory_valid dirs sf hs, getDirectory_valid dirs tf ht, hsrc,
    htgt, hmv]

theorem moveImage_ok_char (dirs : List (String × FPath)) (mv : List FPath) (fs : Fs)
    (id sf tf : String) (sd td : FPath) (i : ImgInfo)
    (hne : sf ≠ tf)
    (hgs : getDirectory dirs sf = Except.ok sd)
    (hgt : getDirectory dirs tf = Except.ok td)
    (hdlen : sd.length = td.length) (hdne : sd ≠ td)
    (hi : fsLookup fs (sd ++ [id]) = some i)
    (htgt : fsExists fs (td ++ [id]) = false)
    (hm1 : (sd ++ [id]) ∉ mv)
    (hm2 : withSuffix (sd ++ [id]) ".json" ∉ mv) :
    isOkE (moveImage dirs mv fs id sf tf).2 = true
      ∧ fsLookup (moveImage dirs mv fs id sf tf).1 (td ++ [id]) = some i
      ∧ fsExists (moveImage dirs mv fs id sf tf).1 (sd ++ [id]) = false
      ∧ (moveImage dirs mv fs id sf tf).2
          = getMetadata (moveImage dirs mv fs id sf tf).1 (td ++ [id])
      ∧ (fsExists fs (withSuffix (sd ++ [id]) ".json") = true →
          withSuffix (sd ++ [id]) ".json" ≠ (sd ++ [id]) →
          fsExists (moveImage dirs mv fs id sf tf).1 (withSuffix (td ++ [id]) ".json") = true
            ∧ fsExists (moveImage dirs mv fs id sf tf).1
                (withSuffix (sd ++ [id]) ".json") = false) := by
  have hbe : (sf == tf) = false := beq_eq_false_iff_ne.mpr hne
  have hexs : fsExists fs (sd ++ [id]) = true := by simp [fsExists, hi]
  have hmv1 : shutilMove mv fs (sd ++ [id]) (td ++ [id])
      = some (fsInsert (fsErase fs (sd ++ [id])) (td ++ [id]) i) := by
    simp [shutilMove, hm1, hi]
  have hst : (sd ++ [id]) ≠ (td ++ [id]) := append_singleton_ne id id hdlen hdne
  have hl1tgt : fsLookup (fsInsert (fsErase fs (sd ++ [id])) (td ++ [id]) i) (td ++ [id])
      = some i := fsLookup_insert_self _ _ _
  have hl1src : fsLookup (fsInsert (fsErase fs (sd ++ [id])) (td ++ [id]) i) (sd ++ [id])
      = Option.none := by
    rw [fsLookup_insert, if_neg hst, fsLookup_erase, if_pos rfl]
  by_cases hsm1 : fsExists (fsInsert (fsErase fs (sd ++ [id])) (td ++ [id]) i)
      (withSuffix (sd ++ [id]) ".json") = true
  · obtain ⟨j, hj⟩ : ∃ j, fsLookup (fsInsert (fsErase fs (sd ++ [id])) (td ++ [id]) i)
        (withSuffix (sd ++ [id]) ".json") = some j := by
      cases hjj : fsLookup (fsInsert (fsErase fs (sd ++ [id])) (td ++ [id]) i)
          (withSuffix (sd ++ [id]) ".json") with
      | none => rw [fsExists, hjj] at hsm1; simp at hsm1
      | some j => exact ⟨j, rfl⟩
    have hsmsrc : withSuffix (sd ++ [id]) ".json" ≠ (sd ++ [id]) := by
      intro hc
      rw [hc, hl1src] at hj
      cases hj
    have hidne : id ≠ nameStem id ++ ".json" := by
      intro hc
      apply hsmsrc
      rw [withSuffix_concat, ← hc]
    have htgttm : (td ++ [id]) ≠ withSuffix (td ++ [id]) ".json" := by
      rw [withSuffix_concat]
      intro hc
      exact hidne (List.append_cancel_left hc |> List.singleton_injective)
    have htgtsm : (td ++ [id]) ≠ withSuffix (sd ++ [id]) ".json" := by
      rw [withSuffix_concat]
      exact append_singleton_ne _ _ hdlen.symm (fun hc => hdne hc.symm)
    have hsrctm : (sd ++ [id]) ≠ withSuffix (td ++ [id]) ".json" := by
      rw [withSuffix_concat]
      exact append_singleton_ne _ _ hdlen hdne
    have hmv2 : shutilMove mv (fsInsert (fsErase fs (sd ++ [id])) (td ++ [id]) i)
        (withSuffix (sd ++ [id]) ".json") (withSuffix (td ++ [id]) ".json")
        = some (fsInsert
            (fsErase (fsInsert (fsErase fs (sd ++ [id])) (td ++ [id]) i)
              (withSuffix (sd ++ [id]) ".json"))
            (withSuffix (td ++ [id]) ".json") j) := by
      simp [shutilMove, hm2, hj]
    have hl2tgt : fsLookup (fsInsert
        (fsErase (fsInsert (fsErase fs (sd ++ [id])) (td ++ [id]) i)
          (withSuffix (sd ++ [id]) ".json"))
        (withSuffix (td ++ [id]) ".json") j) (td ++ [id]) = some i := by
      rw [fsLookup_insert, if_neg htgttm, fsLookup_erase, if_neg htgtsm, hl1tgt]
    have hl2src : fsLookup (fsInsert
        (fsErase (fsInsert (fsErase fs (sd ++ [id])) (td ++ [id]) i)
          (withSuffix (sd ++ [id]) ".json"))
        (withSuffix (td ++ [id]) ".json") j) (sd ++ [id]) = Option.none := by
      rw [fsLookup_insert, if_neg hsrctm, fsLookup_erase, if_neg (fun hc => hsmsrc hc.symm),
        hl1src]
    have hmd := getMetadata_of_lookup _ _ _ hl2tgt
    have hmain : moveImage dirs mv fs id sf tf
        = (fsInsert
            (fsErase (fsInsert (fsErase fs (sd ++ [id])) (td ++ [id]) i)
              (withSuffix (sd ++ [id]) ".json"))
            (withSuffix (td ++ [id]) ".json") j,
           getMetadata (fsInsert
            (fsErase (fsInsert (fsErase fs (sd ++ [id])) (td ++ [id]) i)
              (withSuffix (sd ++ [id]) ".json"))
            (withSuffix (td ++ [id]) ".json") j) (td ++ [id])) := by
      simp [moveImage, hbe, hgs, hgt, hexs, htgt, hmv1, hsm1, hmv2, hmd]
    rw [hmain]
    refine ⟨?_, hl2tgt, ?_, rfl, ?_⟩
    · rw [hmd]
      rfl
    · simp [fsExists, hl2src]
    · intro _ _
      have hsmtm : withSuffix (sd ++ [id]) ".json" ≠ withSuffix (td ++ [id]) ".json" := by
        rw [withSuffix_concat, withSuffix_concat]
        exact append_singleton_ne _ _ hdlen hdne
      have hsmgone : fsLookup (fsInsert
          (fsErase (fsInsert (fsErase fs (sd ++ [id])) (td ++ [id]) i)
            (withSuffix (sd ++ [id]) ".json"))
          (withSuffix (td ++ [id]) ".json") j) (withSuffix (sd ++ [id]) ".json")
          = Option.none := by
        rw [fsLookup_insert, if_neg hsmtm, fsLookup_erase, if_pos rfl]
      exact ⟨fsExists_insert_self _ _ _, by simp [fsExists, hsmgone]⟩
  · have hsm1f : fsExists (fsInsert (fsErase fs (sd ++ [id])) (td ++ [id]) i)
        (withSuffix (sd ++ [id]) ".json") = false := by
      simpa using hsm1
    have hmd := getMetadata_of_lookup _ _ _ hl1tgt
    have hmain : moveImage dirs mv fs id sf tf
        = (fsInsert (fsErase fs (sd ++ [id])) (td ++ [id]) i,
           getMetadata (fsInsert (fsErase fs (sd ++ [id])) (td ++ [id]) i) (td ++ [id])) := by
      simp [moveImage, hbe, hgs, hgt, hexs, htgt, hmv1, hsm1f, hmd]
    rw [hmain]
    refine ⟨?_, hl1tgt, ?_, rfl, ?_⟩
    · rw [hmd]
      rfl
    · simp [fsExists, hl1src]
    · intro hex hsmsrc
      exfalso
      by_cases hsmtgt : withSuffix (sd ++ [id]) ".json" = td ++ [id]
      · rw [fsExists, fsLookup_insert, if_pos hsmtgt] at hsm1f
        simp at hsm1f
      · rw [fsExists, fsLookup_insert, if_neg hsmtgt, fsLookup_erase, if_neg hsmsrc] at hsm1f
        rw [fsExists] at hex
        rw [hex] at hsm1f
        cases hsm1f

theorem unlink_some (uf : List FPath) (fs fs' : Fs) (p : FPath)
    (h : unlink uf fs p = some fs') : fs' = fsErase fs p := by
  unfold unlink at h
  split at h
  · cases h
  · split at h
    · injection h with h1
      exact h1.symm
    · cases h

theorem deleteImage_ok_char (dirs : List (String × FPath)) (uf : List FPath) (fs : Fs)
    (id folder : String) (d : FPath) (fs2 : Fs) (r : DeleteOk)
    (hgd : getDirectory dirs folder = Except.ok d)
    (h : deleteImage dirs uf fs id folder = (fs2, Except.ok r)) :
    fsExists fs2 (d ++ [id]) = false
      ∧ fsExists fs2 (withSuffix (d ++ [id]) ".json") = false := by
  simp only [deleteImage] at h
  split at h
  · simp at h
  · rename_i directory heq
    rw [hgd] at heq
    injection heq with heq
    subst heq
    split at h
    · simp at h
    · split at h
      · simp at h
      · split at h
        · split at h
          · simp at h
          · rename_i fs1 heq1
            split at h
            · simp at h
            · rename_i fs2v heq2
              simp only [Prod.mk.injEq] at h
              obtain ⟨h1, _⟩ := h
              have e1 := unlink_some _ _ _ _ heq1
              have e2 := unlink_some _ _ _ _ heq2
              subst h1 e1 e2
              constructor
              · exact fsExists_erase_self _ _
              · have hmd : fsLookup
                    (fsErase (fsErase fs (withSuffix (d ++ [id]) ".json")) (d ++ [id]))
                    (withSuffix (d ++ [id]) ".json") = Option.none := by
                  rw [fsLookup_erase]
                  by_cases hmi : withSuffix (d ++ [id]) ".json" = d ++ [id]
                  · simp [hmi]
                  · rw [if_neg hmi, fsLookup_erase, if_pos rfl]
                simp [fsExists, hmd]
        · rename_i hnomd
          split at h
          · simp at h
          · rename_i fs1 heq1
            simp only [Prod.mk.injEq] at h
            obtain ⟨h1, _⟩ := h
            have e1 := unlink_some _ _ _ _ heq1
            subst h1 e1
            have hmdf : fsExists fs (withSuffix (d ++ [id]) ".json") = false := by
              simpa using hnomd
            constructor
            · exact fsExists_erase_self _ _
            · rw [fsExists, fsLookup_erase]
              by_cases hmi : withSuffix (d ++ [id]) ".json" = d ++ [id]
              · simp [hmi]
              · rw [if_neg hmi]
                exact hmdf

theorem saveImage_ok_char (dirs : List (String × FPath)) (exts : List (String × String))
    (sfails : List FPath) (fs : Fs) (file : UploadedFile) (folder : String)
    (fn : Option String) (fmt fresh : String) (fs2 : Fs) (p : FPath)
    (h : saveImage dirs exts sfails fs file folder fn fmt fresh = (fs2, Except.ok p)) :
    ∃ fname directory info,
      getFileName exts fn fmt fresh = Except.ok fname
        ∧ getDirectory dirs folder = Except.ok directory
        ∧ file.content = some info
        ∧ p = directory ++ [fname]
        ∧ fs2 = fsInsert fs p { info with format := strUpper fmt } := by
  simp only [saveImage] at h
  split at h
  · simp at h
  · rename_i fname heq1
    split at h
    · simp at h
    · rename_i directory heq2
      split at h
      · rename_i heqc
        simp at h
      · rename_i info heqc
        split at h
        · simp at h
        · simp only [Prod.mk.injEq] at h
          obtain ⟨h1, h2⟩ := h
          injection h2 with h2
          exact ⟨fname, directory, info, heq1, heq2, heqc, h2.symm, by rw [← h1, h2]⟩

theorem fsErase_no_new (fs : Fs) (p q : FPath) :
    fsLookup (fsErase fs p) q = fsLookup fs q ∨ fsLookup (fsErase fs p) q = Option.none := by
  rw [fsLookup_erase]
  by_cases h : q = p
  · simp [h]
  · simp [h]

theorem saveImage_error_no_new (dirs : List (String × FPath)) (exts : List (String × String))
    (sfails : List FPath) (fs : Fs) (file : UploadedFile) (folder : String)
    (fn : Option String) (fmt fresh : String) (fs2 : Fs) (e : HTTPError)
    (h : saveImage dirs exts sfails fs file folder fn fmt fresh = (fs2, Except.error e)) :
    ∀ q, fsLookup fs2 q = fsLookup fs q ∨ fsLookup fs2 q = Option.none := by
  simp only [saveImage] at h
  split at h
  · simp only [Prod.mk.injEq] at h
    obtain ⟨h1, _⟩ := h
    subst h1
    intro q
    exact Or.inl rfl
  · split at h
    · simp only [Prod.mk.injEq] at h
      obtain ⟨h1, _⟩ := h
      subst h1
      intro q
      exact Or.inl rfl
    · split at h
      · simp only [Prod.mk.injEq] at h
        obtain ⟨h1, _⟩ := h
        subst h1
        intro q
        exact fsErase_no_new fs _ q
      · split at h
        · simp only [Prod.mk.injEq] at h
          obtain ⟨h1, _⟩ := h
          subst h1
          intro q
          exact fsErase_no_new fs _ q
        · simp at h

/-! ### C2 — status-code case analysis of `move_image` -/

/-- C2: `move_image` raises HTTP 400 when source and target folders are
equal or when either folder name is invalid, HTTP 404 when no file named
`image_id` exists in the source folder, HTTP 409 when a file named
`image_id` already exists in the target folder, HTTP 500 when the
underlying filesystem move fails, and otherwise moves the file (it
appears in the target folder with its contents, and disappears from the
source folder) and returns the metadata of the file at its target path.
Checks are performed in that order, and every error before the move
leaves the filesystem unchanged. -/
theorem move_image_spec :
    (∀ (mv : List FPath) (fs : Fs) (id f : String),
        moveImage getDirectories mv fs id f f
          = (fs, Except.error ⟨400, "Source and target folders cannot be the same"⟩))
    ∧ (∀ (mv : List FPath) (fs : Fs) (id sf tf : String), sf ≠ tf →
        validateFolder getDirectories sf = false →
        moveImage getDirectories mv fs id sf tf
          = (fs, Except.error ⟨400, "Invalid folder: " ++ sf⟩))
    ∧ (∀ (mv : List FPath) (fs : Fs) (id sf tf : String), sf ≠ tf →
        validateFolder getDirectories sf = true →
        validateFolder getDirectories tf = false →
        moveImage getDirectories mv fs id sf tf
          = (fs, Except.error ⟨400, "Invalid folder: " ++ tf⟩))
    ∧ (∀ (mv : List FPath) (fs : Fs) (id sf tf : String), sf ≠ tf →
        validateFolder getDirectories sf = true →
        validateFolder getDirectories tf = true →
        fsExists fs ((getDirectories.lookup sf).getD [] ++ [id]) = false →
        moveImage getDirectories mv fs id sf tf
          = (fs, Except.error ⟨404, "Image " ++ id ++ " not found in " ++ sf⟩))
    ∧ (∀ (mv : List FPath) (fs : Fs) (id sf tf : String), sf ≠ tf →
        validateFolder getDirectories sf = true →
        validateFolder getDirectories tf = true →
        fsExists fs ((getDirectories.lookup sf).getD [] ++ [id]) = true →
        fsExists fs ((getDirectories.lookup tf).getD [] ++ [id]) = true →
        moveImage getDirectories mv fs id sf tf
          = (fs, Except.error ⟨409, "Image " ++ id ++ " already exists in " ++ tf⟩))
    ∧ (∀ (mv : List FPath) (fs : Fs) (id sf tf : String), sf ≠ tf →
        validateFolder getDirectories sf = true →
        validateFolder getDirectories tf = true →
        fsExists fs ((getDirectories.lookup sf).getD [] ++ [id]) = true →
        fsExists fs ((getDirectories.lookup tf).getD [] ++ [id]) = false →
        ((getDirectories.lookup sf).getD [] ++ [id]) ∈ mv →
        moveImage getDirectories mv fs id sf tf
          = (fs, Except.error ⟨500, "Failed to move image"⟩))
    ∧ (∀ (mv : List FPath) (fs : Fs) (id sf tf : String) (i : ImgInfo), sf ≠ tf →
        validateFolder getDirectories sf = true →
        validateFolder getDirectories tf = true →
        fsLookup fs ((getDirectories.lookup sf).getD [] ++ [id]) = some i →
        fsExists fs ((getDirectories.lookup tf).getD [] ++ [id]) = false →
        ((getDirectories.lookup sf).getD [] ++ [id]) ∉ mv →
        withSuffix ((getDirectories.lookup sf).getD [] ++ [id]) ".json" ∉ mv →
        isOkE (moveImage getDirectories mv fs id sf tf).2 = true
          ∧ fsLookup (moveImage getDirectories mv fs id sf tf).1
              ((getDirectories.lookup tf).getD [] ++ [id]) = some i
          ∧ fsExists (moveImage getDirectories mv fs id sf tf).1
              ((getDirectories.lookup sf).getD [] ++ [id]) = false
          ∧ (moveImage getDirectories mv fs id sf tf).2
              = getMetadata (moveImage getDirectories mv fs id sf tf).1
                  ((getDirectories.lookup tf).getD [] ++ [id])) := by
  refine ⟨?_, ?_, ?_, ?_, ?_, ?_, ?_⟩
  · intro mv fs id f
    exact moveImage_same_folder getDirectories mv fs id f
  · intro mv fs id sf tf hne hs
    exact moveImage_invalid_source getDirectories mv fs id sf tf hne hs
  · intro mv fs id sf tf hne hs ht
    exact moveImage_invalid_target getDirectories mv fs id sf tf hne hs ht
  · intro mv fs id sf tf hne hs ht hsrc
    exact moveImage_missing_source getDirectories mv fs id sf tf hne hs ht hsrc
  · intro mv fs id sf tf hne hs ht hsrc htgt
    exact moveImage_collision getDirectories mv fs id sf tf hne hs ht hsrc htgt
  · intro mv fs id sf tf hne hs ht hsrc htgt hm
    exact moveImage_move_fail getDirectories mv fs id sf tf hne hs ht hsrc htgt
      (by simpa using hm)
  · intro mv fs id sf tf i hne hs ht hi htgt hm1 hm2
    obtain ⟨hdne, hdlen⟩ := valid_dirs_facts sf tf hs ht hne
    obtain ⟨c1, c2, c3, c4, _⟩ := moveImage_ok_char getDirectories mv fs id sf tf
      ((getDirectories.lookup sf).getD []) ((getDirectories.lookup tf).getD []) i hne
      (getDirectory_valid getDirectories sf hs) (getDirectory_valid getDirectories tf ht)
      hdlen hdne hi htgt hm1 hm2
    exact ⟨c1, c2, c3, c4⟩

/-- C2 witness: moving a missing image from `uploaded` to `edited` yields
HTTP 404, and a successful move of a present image is exercised end to
end. -/
theorem move_image_spec_witness :
    moveImage getDirectories [] [] "x.jpg" "uploaded" "edited"
        = ([], Except.error ⟨404, "Image " ++ "x.jpg" ++ " not found in " ++ "uploaded"⟩)
      ∧ isOkE (moveImage getDirectories [] c4fs "a.jpg" "uploaded" "edited").2 = true :=
  ⟨move_image_spec.2.2.2.1 [] [] "x.jpg" "uploaded" "edited" (by decide) (by decide)
      (by decide) (by decide),
    (move_image_spec.2.2.2.2.2.2 [] c4fs "a.jpg" "uploaded" "edited" ⟨"JPEG", "RGB", 1, 2, 3⟩
      (by decide) (by decide) (by decide) rfl (by decide) (by decide) (by decide)).1⟩

/-! ### C5 — upload → fetch → delete round trip -/

/-- C5: when an upload saves a file at path `p` in the uploaded folder,
fetching the saved name `n = basename p` from the uploaded folder
succeeds and returns metadata whose `filename` field equals `n`; and
after a successful `delete_image(n, "uploaded")` the same fetch raises
HTTP 404. -/
theorem upload_fetch_delete_roundtrip (exts : List (String × String)) (sfails : List FPath)
    (uf : List FPath) (fs : Fs) (file : UploadedFile) (fn : Option String)
    (fmt fresh : String) (fs2 : Fs) (p : FPath)
    (hsave : saveImage getDirectories exts sfails fs file "uploaded" fn fmt fresh
        = (fs2, Except.ok p)) :
    (∃ md, getImageById getDirectories fs2 (baseName p) "uploaded" = Except.ok md
        ∧ md.lookup "filename" = some (Val.str (baseName p)))
      ∧ (∀ (fs3 : Fs) (r : DeleteOk),
          deleteImage getDirectories uf fs2 (baseName p) "uploaded" = (fs3, Except.ok r) →
          getImageById getDirectories fs3 (baseName p) "uploaded"
            = Except.error ⟨404, "Image " ++ baseName p ++ " not found in " ++ "uploaded"⟩) := by
  obtain ⟨fname, directory, info, hfn, hdir, hc, hp, hfs2⟩ :=
    saveImage_ok_char getDirectories exts sfails fs file "uploaded" fn fmt fresh fs2 p hsave
  rw [show getDirectory getDirectories "uploaded" = Except.ok uploadedDir from rfl] at hdir
  injection hdir with hdir
  subst hdir
  have hbn : baseName p = fname := by
    rw [hp]
    simp [baseName]
  have hpath : uploadedDir ++ [baseName p] = p := by
    rw [hbn, hp]
  have hlook : fsLookup fs2 p = some { info with format := strUpper fmt } := by
    rw [hfs2]
    exact fsLookup_insert_self _ _ _
  have hex2 : fsExists fs2 (uploadedDir ++ [baseName p]) = true := by
    rw [hpath]
    simp [fsExists, hlook]
  constructor
  · have hex2p : fsExists fs2 p = true := by
      rw [← hpath]
      exact hex2
    have hgp : getImagePath getDirectories fs2 (baseName p) "uploaded" = Except.ok p := by
      simp [getImagePath,
        show getDirectory getDirectories "uploaded" = Except.ok uploadedDir from rfl,
        hex2, hex2p, hpath]
    have hmd := getMetadata_of_lookup fs2 p _ hlook
    have hfull : getImageById getDirectories fs2 (baseName p) "uploaded"
        = Except.ok [("filename", Val.str (baseName p)), ("format", Val.str (strUpper fmt)),
            ("mode", Val.str info.mode), ("width", Val.nat info.width),
            ("height", Val.nat info.height), ("size_bytes", Val.nat info.sizeBytes),
            ("path", Val.str (joinPath p)), ("url", Val.null)] := by
      simp [getImageById, hgp, hmd]
    exact ⟨_, hfull, by simp [List.lookup]⟩
  · intro fs3 r hdel
    have hd := deleteImage_ok_char getDirectories uf fs2 (baseName p) "uploaded"
      uploadedDir fs3 r rfl hdel
    simp [getImageById, getImagePath,
      show getDirectory getDirectories "uploaded" = Except.ok uploadedDir from rfl, hd.1]

/-- C5 witness: a concrete upload of a valid PNG named `pic.png` saved as
JPEG, fetched and deleted. -/
theorem upload_fetch_delete_roundtrip_witness :
    saveImage getDirectories getFormatExtensions [] [] ⟨some ⟨"PNG", "RGB", 10, 20, 333⟩⟩
        "uploaded" (some "pic.png") "JPEG" "fresh"
      = ([(uploadedDir ++ ["pic.jpg"], ⟨"JPEG", "RGB", 10, 20, 333⟩)],
         Except.ok (uploadedDir ++ ["pic.jpg"]))
      ∧ (∃ md, getImageById getDirectories
            [(uploadedDir ++ ["pic.jpg"], ⟨"JPEG", "RGB", 10, 20, 333⟩)]
            (baseName (uploadedDir ++ ["pic.jpg"])) "uploaded" = Except.ok md
          ∧ md.lookup "filename"
              = some (Val.str (baseName (uploadedDir ++ ["pic.jpg"])))) :=
  ⟨rfl,
    (upload_fetch_delete_roundtrip getFormatExtensions [] [] []
      ⟨some ⟨"PNG", "RGB", 10, 20, 333⟩⟩ (some "pic.png") "JPEG" "fresh"
      [(uploadedDir ++ ["pic.jpg"], ⟨"JPEG", "RGB", 10, 20, 333⟩)]
      (uploadedDir ++ ["pic.jpg"]) rfl).1⟩

/-! ### C1 — atomicity of requests -/

theorem deleteAllImages_status (dirs : List (String × FPath)) (uf : List FPath) (fs : Fs)
    (folder : String) (dl : List FPath)
    (h : (getFolderMap dirs).lookup folder = some dl) :
    ∃ n, (deleteAllImages dirs uf fs folder).2 = Except.ok ⟨"success", n⟩ := by
  simp [deleteAllImages, h]

/-- Filesystem for the atomicity counterexample: an image and its `.json`
sidecar in the uploaded folder. -/
def c1fs : Fs :=
  [(uploadedDir ++ ["a.jpg"], ⟨"JPEG", "RGB", 1, 2, 3⟩),
   (uploadedDir ++ ["a.json"], ⟨"JPEG", "RGB", 1, 2, 3⟩)]

/-- C1, counterexample: (i) when the unlink of `a.jpg` raises,
`delete_all_images("uploaded")` nevertheless responds with status
`success` (count 0) while the image file is still present — a success
response without the operation's effect; (ii) when moving the `.json`
sidecar raises, `move_image` returns an HTTP error while the image file
has already been moved — an error response with a partial effect on the
stored files. -/
theorem atomicity_counterexample :
    (deleteAllImages getDirectories [uploadedDir ++ ["a.jpg"]] c1fs "uploaded").2
        = Except.ok ⟨"success", 0⟩
      ∧ fsExists (deleteAllImages getDirectories [uploadedDir ++ ["a.jpg"]] c1fs "uploaded").1
          (uploadedDir ++ ["a.jpg"]) = true
      ∧ isOkE (moveImage getDirectories [uploadedDir ++ ["a.json"]] c1fs
          "a.jpg" "uploaded" "edited").2 = false
      ∧ (moveImage getDirectories [uploadedDir ++ ["a.json"]] c1fs
          "a.jpg" "uploaded" "edited").1 ≠ c1fs :=
  ⟨rfl, by decide, rfl, by decide⟩

/-- C1 (amended): every pre-move/pre-delete validation error (equal
folders, invalid folder, missing source, target collision) leaves the
filesystem unchanged, and a successful response to a single-file
operation means it completed in full: a successful `move_image` moved
the image to the target folder, removed it from the source folder and
moved the `.json` sidecar when one was present; a successful
`delete_image` removed the image and its sidecar; a successful save
stored the file at the returned path and touched no other path, and a
failed save creates no new file. The operations are however not atomic
under filesystem failures: `delete_all_images` responds `success`
regardless of individual deletion failures, and a move or delete that
fails midway (HTTP 500) can leave a partial effect. -/
theorem request_atomicity_amended :
    (∀ (mv : List FPath) (fs : Fs) (id f : String),
        (moveImage getDirectories mv fs id f f).1 = fs)
    ∧ (∀ (mv : List FPath) (fs : Fs) (id sf tf : String), sf ≠ tf →
        validateFolder getDirectories sf = false →
        (moveImage getDirectories mv fs id sf tf).1 = fs)
    ∧ (∀ (mv : List FPath) (fs : Fs) (id sf tf : String), sf ≠ tf →
        validateFolder getDirectories sf = true →
        validateFolder getDirectories tf = false →
        (moveImage getDirectories mv fs id sf tf).1 = fs)
    ∧ (∀ (mv : List FPath) (fs : Fs) (id sf tf : String), sf ≠ tf →
        validateFolder getDirectories sf = true →
        validateFolder getDirectories tf = true →
        fsExists fs ((getDirectories.lookup sf).getD [] ++ [id]) = false →
        (moveImage getDirectories mv fs id sf tf).1 = fs)
    ∧ (∀ (mv : List FPath) (fs : Fs) (id sf tf : String), sf ≠ tf →
        validateFolder getDirectories sf = true →
        validateFolder getDirectories tf = true →
        fsExists fs ((getDirectories.lookup sf).getD [] ++ [id]) = true →
        fsExists fs ((getDirectories.lookup tf).getD [] ++ [id]) = true →
        (moveImage getDirectories mv fs id sf tf).1 = fs)
    ∧ (∀ (mv : List FPath) (fs : Fs) (id sf tf : String) (i : ImgInfo), sf ≠ tf →
        validateFolder getDirectories sf = true →
        validateFolder getDirectories tf = true →
        fsLookup fs ((getDirectories.lookup sf).getD [] ++ [id]) = some i →
        fsExists fs ((getDirectories.lookup tf).getD [] ++ [id]) = false →
        ((getDirectories.lookup sf).getD [] ++ [id]) ∉ mv →
        withSuffix ((getDirectories.lookup sf).getD [] ++ [id]) ".json" ∉ mv →
        isOkE (moveImage getDirectories mv fs id sf tf).2 = true
          ∧ fsLookup (moveImage getDirectories mv fs id sf tf).1
              ((getDirectories.lookup tf).getD [] ++ [id]) = some i
          ∧ fsExists (moveImage getDirectories mv fs id sf tf).1
              ((getDirectories.lookup sf).getD [] ++ [id]) = false
          ∧ (fsExists fs (withSuffix ((getDirectories.lookup sf).getD [] ++ [id]) ".json") = true →
              withSuffix ((getDirectories.lookup sf).getD [] ++ [id]) ".json"
                ≠ ((getDirectories.lookup sf).getD [] ++ [id]) →
              fsExists (moveImage getDirectories mv fs id sf tf).1
                  (withSuffix ((getDirectories.lookup tf).getD [] ++ [id]) ".json") = true
                ∧ fsExists (moveImage getDirectories mv fs id sf tf).1
                    (withSuffix ((getDirectories.lookup sf).getD [] ++ [id]) ".json") = false))
    ∧ (∀ (uf : List FPath) (fs : Fs) (id folder : String) (d : FPath) (fs3 : Fs) (r : DeleteOk),
        getDirectory getDirectories folder = Except.ok d →
        deleteImage getDirectories uf fs id folder = (fs3, Except.ok r) →
        fsExists fs3 (d ++ [id]) = false
          ∧ fsExists fs3 (withSuffix (d ++ [id]) ".json") = false)
    ∧ (∀ (exts : List (String × String)) (sfails : List FPath) (fs : Fs) (file : UploadedFile)
        (folder : String) (fn : Option String) (fmt fresh : String) (fs2 : Fs) (p : FPath),
        saveImage getDirectories exts sfails fs file folder fn fmt fresh = (fs2, Except.ok p) →
        fsExists fs2 p = true ∧ ∀ q, q ≠ p → fsLookup fs2 q = fsLookup fs q)
    ∧ (∀ (exts : List (String × String)) (sfails : List FPath) (fs : Fs) (file : UploadedFile)
        (folder : String) (fn : Option String) (fmt fresh : String) (fs2 : Fs) (e : HTTPError),
        saveImage getDirectories exts sfails fs file folder fn fmt fresh = (fs2, Except.error e) →
        ∀ q, fsLookup fs2 q = fsLookup fs q ∨ fsLookup fs2 q = Option.none)
    ∧ (∀ (uf : List FPath) (fs : Fs) (folder : String) (dl : List FPath),
        (getFolderMap getDirectories).lookup folder = some dl →
        ∃ n, (deleteAllImages getDirectories uf fs folder).2 = Except.ok ⟨"success", n⟩) := by
  refine ⟨?_, ?_, ?_, ?_, ?_, ?_, ?_, ?_, ?_, ?_⟩
  · intro mv fs id f
    rw [moveImage_same_folder]
  · intro mv fs id sf tf hne hs
    rw [moveImage_invalid_source getDirectories mv fs id sf tf hne hs]
  · intro mv fs id sf tf hne hs ht
    rw [moveImage_invalid_target getDirectories mv fs id sf tf hne hs ht]
  · intro mv fs id sf tf hne hs ht hsrc
    rw [moveImage_missing_source getDirectories mv fs id sf tf hne hs ht hsrc]
  · intro mv fs id sf tf hne hs ht hsrc htgt
    rw [moveImage_collision getDirectories mv fs id sf tf hne hs ht hsrc htgt]
  · intro mv fs id sf tf i hne hs ht hi htgt hm1 hm2
    obtain ⟨hdne, hdlen⟩ := valid_dirs_facts sf tf hs ht hne
    obtain ⟨c1, c2, c3, _, c5⟩ := moveImage_ok_char getDirectories mv fs id sf tf
      ((getDirectories.lookup sf).getD []) ((getDirectories.lookup tf).getD []) i hne
      (getDirectory_valid getDirectories sf hs) (getDirectory_valid getDirectories tf ht)
      hdlen hdne hi htgt hm1 hm2
    exact ⟨c1, c2, c3, c5⟩
  · intro uf fs id folder d fs3 r hgd hdel
    exact deleteImage_ok_char getDirectories uf fs id folder d fs3 r hgd hdel
  · intro exts sfails fs file folder fn fmt fresh fs2 p hsave
    obtain ⟨fname, directory, info, _, _, _, hp, hfs2⟩ :=
      saveImage_ok_char getDirectories exts sfails fs file folder fn fmt fresh fs2 p hsave
    constructor
    · rw [hfs2]
      exact fsExists_insert_self _ _ _
    · intro q hq
      rw [hfs2, fsLookup_insert, if_neg hq]
  · intro exts sfails fs file folder fn fmt fresh fs2 e hsave
    exact saveImage_error_no_new getDirectories exts sfails fs file folder fn fmt fresh
      fs2 e hsave
  · intro uf fs folder dl h
    exact deleteAllImages_status getDirectories uf fs folder dl h

/-- C1 witness: the amended statement at concrete inputs — a same-folder
move leaves the filesystem unchanged, and a bulk clear of the uploaded
folder reports success. -/
theorem request_atomicity_amended_witness :
    (moveImage getDirectories [] c1fs "a.jpg" "uploaded" "uploaded").1 = c1fs
      ∧ (∃ n, (deleteAllImages getDirectories [] c1fs "uploaded").2
          = Except.ok ⟨"success", n⟩) :=
  ⟨request_atomicity_amended.1 [] c1fs "a.jpg" "uploaded",
    request_atomicity_amended.2.2.2.2.2.2.2.2.2 [] c1fs "uploaded" [uploadedDir] rfl⟩

/-! ### C7 — files live in the three known folders -/

/-- A path lies below one of the three configured folders. -/
def inKnownFolders (p : FPath) : Bool :=
  uploadedDir.isPrefixOf p || editedDir.isPrefixOf p || detectedDir.isPrefixOf p

/-- Every file of the filesystem lies below one of the three configured
folders. -/
def invariantFs (fs : Fs) : Bool :=
  fs.all (fun e => inKnownFolders e.1)

theorem invariantFs_erase (fs : Fs) (p : FPath) (h : invariantFs fs = true) :
    invariantFs (fsErase fs p) = true := by
  rw [invariantFs, List.all_eq_true] at h ⊢
  intro e he
  exact h e (List.mem_of_mem_filter he)

theorem invariantFs_insert (fs : Fs) (p : FPath) (i : ImgInfo)
    (h : invariantFs fs = true) (hp : inKnownFolders p = true) :
    invariantFs (fsInsert fs p i) = true := by
  rw [invariantFs, List.all_eq_true]
  intro e he
  rcases List.mem_cons.mp he with he | he
  · rw [he]
    exact hp
  · have h2 := invariantFs_erase fs p h
    rw [invariantFs, List.all_eq_true] at h2
    exact h2 e he

theorem getDirectory_inKnown (f : String) (d : FPath)
    (h : getDirectory getDirectories f = Except.ok d) :
    d = uploadedDir ∨ d = editedDir ∨ d = detectedDir := by
  have hv : validateFolder getDirectories f = true := by
    by_cases hv : validateFolder getDirectories f = true
    · exact hv
    · exfalso
      rw [getDirectory_invalid getDirectories f (by simpa using hv)] at h
      cases h
  rcases validateFolder_cases f hv with h1 | h1 | h1 <;> subst h1
  · left
    rw [show getDirectory getDirectories "uploaded" = Except.ok uploadedDir from rfl] at h
    injection h with h
    exact h.symm
  · right
    left
    rw [show getDirectory getDirectories "edited" = Except.ok editedDir from rfl] at h
    injection h with h
    exact h.symm
  · right
    right
    rw [show getDirectory getDirectories "detected" = Except.ok detectedDir from rfl] at h
    injection h with h
    exact h.symm

theorem isPrefixOf_append_self (d r : FPath) : d.isPrefixOf (d ++ r) = true := by
  rw [List.isPrefixOf_iff_prefix]
  exact List.prefix_append d r

theorem inKnownFolders_append (d : FPath) (x : String)
    (hd : d = uploadedDir ∨ d = editedDir ∨ d = detectedDir) :
    inKnownFolders (d ++ [x]) = true := by
  rcases hd with h | h | h <;> subst h <;>
    simp [inKnownFolders, isPrefixOf_append_self]

theorem shutilMove_some (mv : List FPath) (fs fs' : Fs) (src dst : FPath)
    (h : shutilMove mv fs src dst = some fs') :
    ∃ i, fsLookup fs src = some i ∧ fs' = fsInsert (fsErase fs src) dst i := by
  unfold shutilMove at h
  split at h
  · cases h
  · split at h
    · rename_i i hi
      injection h with h
      exact ⟨i, hi, h.symm⟩
    · cases h

theorem saveImage_invariant (exts : List (String × String)) (sfails : List FPath) (fs : Fs)
    (file : UploadedFile) (folder : String) (fn : Option String) (fmt fresh : String)
    (h : invariantFs fs = true) :
    invariantFs (saveImage getDirectories exts sfails fs file folder fn fmt fresh).1 = true := by
  cases hfn : getFileName exts fn fmt fresh with
  | error e => simp [saveImage, hfn, h]
  | ok fname =>
    cases hdir : getDirectory getDirectories folder with
    | error e => simp [saveImage, hfn, hdir, h]
    | ok d =>
      have hk : inKnownFolders (d ++ [fname]) = true :=
        inKnownFolders_append d fname (getDirectory_inKnown folder d hdir)
      cases hc : file.content with
      | none =>
        simp [saveImage, hfn, hdir, hc]
        exact invariantFs_erase fs _ h
      | some info =>
        by_cases hs : (d ++ [fname]) ∈ sfails
        · simp [saveImage, hfn, hdir, hc, hs]
          exact invariantFs_erase fs _ h
        · simp [saveImage, hfn, hdir, hc, hs]
          exact invariantFs_insert fs _ _ h hk

theorem editOutputPath_under (ip : FPath) (suffix : Option String) :
    ∃ nm, editOutputPath getDirectories ip suffix = editedDir ++ [nm] := by
  cases suffix <;> exact ⟨_, rfl⟩

theorem processImage_invariant (sfails : List FPath) (fs : Fs) (name : String)
    (op : ImgInfo → ImgInfo) (suffix : Option String) (h : invariantFs fs = true) :
    invariantFs (processImage getDirectories sfails fs name op suffix).1 = true
      ∧ (∀ p, (processImage getDirectories sfails fs name op suffix).2 = Except.ok p →
          editedDir.isPrefixOf p = true) := by
  obtain ⟨nm, hout⟩ := editOutputPath_under ([] : FPath) suffix
  cases hgp : getImagePath getDirectories fs name "uploaded" with
  | error e => simp [processImage, hgp, h]
  | ok ip =>
    obtain ⟨nm2, hout2⟩ := editOutputPath_under ip suffix
    cases hl : fsLookup fs ip with
    | none => simp [processImage, hgp, hl, h]
    | some info =>
      by_cases hsf : editOutputPath getDirectories ip suffix ∈ sfails
      · simp [processImage, hgp, hl, hsf, h]
      · constructor
        · simp [processImage, hgp, hl, hsf]
          apply invariantFs_insert fs _ _ h
          rw [hout2]
          exact inKnownFolders_append editedDir nm2 (Or.inr (Or.inl rfl))
        · intro p hp
          simp [processImage, hgp, hl, hsf] at hp
          rw [← hp, hout2]
          exact isPrefixOf_append_self editedDir [nm2]

theorem moveImage_invariant (mv : List FPath) (fs : Fs) (id sf tf : String)
    (h : invariantFs fs = true) :
    invariantFs (moveImage getDirectories mv fs id sf tf).1 = true := by
  by_cases hbe : (sf == tf) = true
  · simp [moveImage, hbe, h]
  · simp only [Bool.not_eq_true] at hbe
    cases hgs : getDirectory getDirectories sf with
    | error e => simp [moveImage, hbe, hgs, h]
    | ok sd =>
      cases hgt : getDirectory getDirectories tf with
      | error e => simp [moveImage, hbe, hgs, hgt, h]
      | ok td =>
        by_cases hsrc : fsExists fs (sd ++ [id]) = true
        case neg =>
          have hsrcf : fsExists fs (sd ++ [id]) = false := by simpa using hsrc
          simp [moveImage, hbe, hgs, hgt, hsrcf, h]
        case pos =>
        by_cases htgt : fsExists fs (td ++ [id]) = true
        · simp [moveImage, hbe, hgs, hgt, hsrc, htgt, h]
        · have htgtf : fsExists fs (td ++ [id]) = false := by simpa using htgt
          cases hmv1 : shutilMove mv fs (sd ++ [id]) (td ++ [id]) with
          | none => simp [moveImage, hbe, hgs, hgt, hsrc, htgtf, hmv1, h]
          | some fs1 =>
            obtain ⟨i, hi, hfs1⟩ := shutilMove_some mv fs fs1 _ _ hmv1
            have hinv1 : invariantFs fs1 = true := by
              rw [hfs1]
              exact invariantFs_insert _ _ _ (invariantFs_erase fs _ h)
                (inKnownFolders_append td id (getDirectory_inKnown tf td hgt))
            by_cases hsm : fsExists fs1 (withSuffix (sd ++ [id]) ".json") = true
            · cases hmv2 : shutilMove mv fs1 (withSuffix (sd ++ [id]) ".json")
                  (withSuffix (td ++ [id]) ".json") with
              | none =>
                simp [moveImage, hbe, hgs, hgt, hsrc, htgtf, hmv1, hsm, hmv2, hinv1]
              | some fs2 =>
                obtain ⟨j, hj, hfs2⟩ := shutilMove_some mv fs1 fs2 _ _ hmv2
                have hinv2 : invariantFs fs2 = true := by
                  rw [hfs2]
                  apply invariantFs_insert _ _ _ (invariantFs_erase fs1 _ hinv1)
                  rw [withSuffix_concat]
                  exact inKnownFolders_append td _ (getDirectory_inKnown tf td hgt)
                cases hmd : getMetadata fs2 (td ++ [id]) with
                | error e =>
                  simp [moveImage, hbe, hgs, hgt, hsrc, htgtf, hmv1, hsm, hmv2, hmd, hinv2]
                | ok md =>
                  simp [moveImage, hbe, hgs, hgt, hsrc, htgtf, hmv1, hsm, hmv2, hmd, hinv2]
            · have hsmf : fsExists fs1 (withSuffix (sd ++ [id]) ".json") = false := by
                simpa using hsm
              cases hmd : getMetadata fs1 (td ++ [id]) with
              | error e =>
                simp [moveImage, hbe, hgs, hgt, hsrc, htgtf, hmv1, hsmf, hmd, hinv1]
              | ok md =>
                simp [moveImage, hbe, hgs, hgt, hsrc, htgtf, hmv1, hsmf, hmd, hinv1]

theorem deleteImage_invariant (uf : List FPath) (fs : Fs) (id folder : String)
    (h : invariantFs fs = true) :
    invariantFs (deleteImage getDirectories uf fs id folder).1 = true := by
  cases hgd : getDirectory getDirectories folder with
  | error e => simp [deleteImage, hgd, h]
  | ok d =>
    by_cases hex : fsExists fs (d ++ [id]) = true
    case neg =>
      have hexf : fsExists fs (d ++ [id]) = false := by simpa using hex
      simp [deleteImage, hgd, hexf, h]
    case pos =>
      cases hmd : getMetadata fs (d ++ [id]) with
      | error e => simp [deleteImage, hgd, hex, hmd, h]
      | ok info =>
        by_cases hsm : fsExists fs (withSuffix (d ++ [id]) ".json") = true
        · cases hu1 : unlink uf fs (withSuffix (d ++ [id]) ".json") with
          | none => simp [deleteImage, hgd, hex, hmd, hsm, hu1, h]
          | some fs1 =>
            have e1 := unlink_some _ _ _ _ hu1
            have hinv1 : invariantFs fs1 = true := by
              rw [e1]
              exact invariantFs_erase fs _ h
            cases hu2 : unlink uf fs1 (d ++ [id]) with
            | none => simp [deleteImage, hgd, hex, hmd, hsm, hu1, hu2, hinv1]
            | some fs2 =>
              have e2 := unlink_some _ _ _ _ hu2
              have hinv2 : invariantFs fs2 = true := by
                rw [e2]
                exact invariantFs_erase fs1 _ hinv1
              simp [deleteImage, hgd, hex, hmd, hsm, hu1, hu2, hinv2]
        · have hsmf : fsExists fs (withSuffix (d ++ [id]) ".json") = false := by
            simpa using hsm
          cases hu1 : unlink uf fs (d ++ [id]) with
          | none => simp [deleteImage, hgd, hex, hmd, hsmf, hu1, h]
          | some fs1 =>
            have e1 := unlink_some _ _ _ _ hu1
            have hinv1 : invariantFs fs1 = true := by
              rw [e1]
              exact invariantFs_erase fs _ h
            simp [deleteImage, hgd, hex, hmd, hsmf, hu1, hinv1]

theorem deleteOneImage_invariant (uf : List FPath) (acc : Fs × Nat) (img : FPath)
    (h : invariantFs acc.1 = true) :
    invariantFs (deleteOneImage uf acc img).1 = true := by
  simp only [deleteOneImage]
  split
  · split
    · exact h
    · rename_i fs1 hu1
      split
      · rw [unlink_some _ _ _ _ hu1]
        exact invariantFs_erase _ _ h
      · rename_i fs2 hu2
        rw [unlink_some _ _ _ _ hu2, unlink_some _ _ _ _ hu1]
        exact invariantFs_erase _ _ (invariantFs_erase _ _ h)
  · split
    · exact h
    · rename_i fs1 hu1
      rw [unlink_some _ _ _ _ hu1]
      exact invariantFs_erase _ _ h

theorem foldl_deleteOne_invariant (uf : List FPath) (l : List FPath) (acc : Fs × Nat)
    (h : invariantFs acc.1 = true) :
    invariantFs (l.foldl (deleteOneImage uf) acc).1 = true := by
  induction l generalizing acc with
  | nil => exact h
  | cons x xs ih => exact ih _ (deleteOneImage_invariant uf acc x h)

theorem foldl_dirs_invariant (uf : List FPath) (dl : List FPath) (acc : Fs × Nat)
    (h : invariantFs acc.1 = true) :
    invariantFs (dl.foldl
      (fun acc d => (imageFilesUnder acc.1 d).foldl (deleteOneImage uf) acc) acc).1 = true := by
  induction dl generalizing acc with
  | nil => exact h
  | cons d ds ih => exact ih _ (foldl_deleteOne_invariant uf _ acc h)

theorem deleteAllImages_invariant (uf : List FPath) (fs : Fs) (folder : String)
    (h : invariantFs fs = true) :
    invariantFs (deleteAllImages getDirectories uf fs folder).1 = true := by
  cases hl : (getFolderMap getDirectories).lookup folder with
  | none => simp [deleteAllImages, hl, h]
  | some dl =>
    simp only [deleteAllImages, hl]
    exact foldl_dirs_invariant uf dl (fs, 0) h

theorem getBoundingBoxes_spec (exts : List (String × String)) (sfails : List FPath)
    (fs : Fs) (ip : FPath) (h : invariantFs fs = true) :
    invariantFs (getBoundingBoxes getDirectories exts sfails fs ip).1 = true
      ∧ (∀ p, (getBoundingBoxes getDirectories exts sfails fs ip).2 = Except.ok p →
          detectedDir.isPrefixOf p = true) := by
  cases hl : fsLookup fs ip with
  | none => simp [getBoundingBoxes, hl, h]
  | some info =>
    constructor
    · simp only [getBoundingBoxes, hl]
      exact saveImage_invariant exts sfails fs _ "detected" _ info.format "" h
    · intro p hp
      simp only [getBoundingBoxes, hl] at hp
      have he : saveImage getDirectories exts sfails fs ⟨some info⟩ "detected"
          (some ((splitextName (baseName ip)).1 ++ "_bounding_boxes" ++ (splitextName (baseName ip)).2))
          info.format ""
          = ((saveImage getDirectories exts sfails fs ⟨some info⟩ "detected"
              (some ((splitextName (baseName ip)).1 ++ "_bounding_boxes"
                ++ (splitextName (baseName ip)).2)) info.format "").1, Except.ok p) := by
        rw [← hp]
      obtain ⟨fname, directory, info2, _, hdir, _, hp2, _⟩ :=
        saveImage_ok_char getDirectories exts sfails fs ⟨some info⟩ "detected" _
          info.format "" _ p he
      rw [show getDirectory getDirectories "detected" = Except.ok detectedDir from rfl] at hdir
      injection hdir with hdir
      subst hdir
      rw [hp2]
      exact isPrefixOf_append_self detectedDir [fname]

/-- C7: every operation preserves the invariant that each managed image
file resides under one of the three known folders, and each writer puts
its output exactly where the claim says: upload (`save` with folder
`uploaded`) writes only the saved path, which lies in the uploaded
folder; every edit writes its output into the edited folder; object
detection writes its annotated output into the detected folder; and
`move_image` (like `save` with any folder, and the delete operations)
never creates a file outside the folder set. -/
theorem folder_invariant_spec :
    (∀ (exts : List (String × String)) (sfails : List FPath) (fs : Fs) (file : UploadedFile)
        (folder : String) (fn : Option String) (fmt fresh : String),
        invariantFs fs = true →
        invariantFs (saveImage getDirectories exts sfails fs file folder fn fmt fresh).1 = true)
    ∧ (∀ (exts : List (String × String)) (sfails : List FPath) (fs : Fs) (file : UploadedFile)
        (fn : Option String) (fmt fresh : String) (fs2 : Fs) (p : FPath),
        saveImage getDirectories exts sfails fs file "uploaded" fn fmt fresh
          = (fs2, Except.ok p) →
        uploadedDir.isPrefixOf p = true ∧ ∀ q, q ≠ p → fsLookup fs2 q = fsLookup fs q)
    ∧ (∀ (sfails : List FPath) (fs : Fs) (name : String) (op : ImgInfo → ImgInfo)
        (suffix : Option String),
        invariantFs fs = true →
        invariantFs (processImage getDirectories sfails fs name op suffix).1 = true
          ∧ (∀ p, (processImage getDirectories sfails fs name op suffix).2 = Except.ok p →
              editedDir.isPrefixOf p = true))
    ∧ (∀ (exts : List (String × String)) (sfails : List FPath) (fs : Fs) (ip : FPath),
        invariantFs fs = true →
        invariantFs (getBoundingBoxes getDirectories exts sfails fs ip).1 = true
          ∧ (∀ p, (getBoundingBoxes getDirectories exts sfails fs ip).2 = Except.ok p →
              detectedDir.isPrefixOf p = true))
    ∧ (∀ (mv : List FPath) (fs : Fs) (id sf tf : String),
        invariantFs fs = true →
        invariantFs (moveImage getDirectories mv fs id sf tf).1 = true)
    ∧ (∀ (uf : List FPath) (fs : Fs) (id folder : String),
        invariantFs fs = true →
        invariantFs (deleteImage getDirectories uf fs id folder).1 = true)
    ∧ (∀ (uf : List FPath) (fs : Fs) (folder : String),
        invariantFs fs = true →
        invariantFs (deleteAllImages getDirectories uf fs folder).1 = true) := by
  refine ⟨?_, ?_, ?_, ?_, ?_, ?_, ?_⟩
  · intro exts sfails fs file folder fn fmt fresh h
    exact saveImage_invariant exts sfails fs file folder fn fmt fresh h
  · intro exts sfails fs file fn fmt fresh fs2 p hsave
    obtain ⟨fname, directory, info, _, hdir, _, hp, hfs2⟩ :=
      saveImage_ok_char getDirectories exts sfails fs file "uploaded" fn fmt fresh fs2 p hsave
    rw [show getDirectory getDirectories "uploaded" = Except.ok uploadedDir from rfl] at hdir
    injection hdir with hdir
    subst hdir
    constructor
    · rw [hp]
      exact isPrefixOf_append_self uploadedDir [fname]
    · intro q hq
      rw [hfs2, fsLookup_insert, if_neg hq]
  · intro sfails fs name op suffix h
    exact processImage_invariant sfails fs name op suffix h
  · intro exts sfails fs ip h
    exact getBoundingBoxes_spec exts sfails fs ip h
  · intro mv fs id sf tf h
    exact moveImage_invariant mv fs id sf tf h
  · intro uf fs id folder h
    exact deleteImage_invariant uf fs id folder h
  · intro uf fs folder h
    exact deleteAllImages_invariant uf fs folder h

/-- C7 witness: the invariant holds on `c1fs` and is preserved by a
concrete grayscale edit, whose output lands in the edited folder. -/
theorem folder_invariant_spec_witness :
    invariantFs c1fs = true
      ∧ invariantFs (processImage getDirectories [] c1fs "a.jpg" grayscaleOp (some "gray")).1
          = true
      ∧ (∀ p, (processImage getDirectories [] c1fs "a.jpg" grayscaleOp (some "gray")).2
            = Except.ok p → editedDir.isPrefixOf p = true) :=
  ⟨by decide,
    (folder_invariant_spec.2.2.1 [] c1fs "a.jpg" grayscaleOp (some "gray") (by decide)).1,
    (folder_invariant_spec.2.2.1 [] c1fs "a.jpg" grayscaleOp (some "gray") (by decide)).2⟩

end ImageAPI
